import Mathlib

/-!
Verification of the UUICS core (Universal UI Context System): a shallow embedding of
the selector sanitizer (`utils.ts`), the action executor (`ActionExecutor.ts`) and the
DOM scanner / element classifier (`DOMScanner`), together with proofs and refutations
of the specified properties.

Host-environment services that the core explicitly delegates (the browser CSS engine
used by `element.matches`/`querySelector`, regular-expression objects supplied by the
caller, and user-supplied script execution) are modeled as function parameters; the
core logic itself is translated line by line from the TypeScript source.
-/

namespace UUICS

/-! ## Character classes used by the selector sanitizer (utils.ts, selectorSanitizer part) -/

/-- The JavaScript `\s` character class, which is also the character set stripped by
`String.prototype.trim`. -/
def jsWhitespace (c : Char) : Bool :=
  c = ' ' || c = '\t' || c = '\n' || c = '\r' || c.val = 11 || c.val = 12 ||
  c.val = 0xA0 || c.val = 0x1680 || (0x2000 ≤ c.val && c.val ≤ 0x200A) ||
  c.val = 0x2028 || c.val = 0x2029 || c.val = 0x202F || c.val = 0x205F ||
  c.val = 0x3000 || c.val = 0xFEFF

/-- The character class `[–\-\s]` of `sanitizeSelector` step 2 (en dash U+2013, hyphen,
whitespace). -/
def dashChar (c : Char) : Bool :=
  c = '–' || c = '-' || jsWhitespace c

/-- The character class `["'""'']` of `sanitizeSelector` step 3: straight and smart
quotes. -/
def quoteChar (c : Char) : Bool :=
  c = '"' || c = '\'' || c = '“' || c = '”' || c = '‘' || c = '’'

/-- ASCII `toLowerCase`, as applied by the scanner to tag names and attribute
values (defined on the character list so that it evaluates by kernel reduction). -/
def toLower (s : String) : String :=
  String.mk (s.data.map Char.toLower)

/-- JavaScript `String.prototype.startsWith` on the character lists. -/
def strStartsWith (s p : String) : Bool :=
  decide (s.data.take p.data.length = p.data)

/-- `Array.prototype.join` with the given separator. -/
def joinSep (sep : String) : List String → String
  | [] => ""
  | [x] => x
  | x :: xs => x ++ sep ++ joinSep sep xs

/-- Drop the maximal leading run of characters satisfying `p`. -/
def dropLeading (p : Char → Bool) (l : List Char) : List Char :=
  l.dropWhile p

/-- Drop the maximal trailing run of characters satisfying `p`. -/
def dropTrailing (p : Char → Bool) (l : List Char) : List Char :=
  (l.reverse.dropWhile p).reverse

/-- Effect of the global replace of the anchored pattern `^X+|X+$` by the empty string:
the maximal leading run and the maximal trailing run of class-`X` characters are
removed (when the whole string is in the class, the leading match consumes it all). -/
def dropEnds (p : Char → Bool) (l : List Char) : List Char :=
  dropTrailing p (dropLeading p l)

/-- JavaScript `String.prototype.trim`. -/
def trimJS (l : List Char) : List Char :=
  dropEnds jsWhitespace l

/-- Step 4 of `sanitizeSelector`: the global replace of `/\\["']/` by the empty string,
i.e. left-to-right removal of non-overlapping backslash+straight-quote pairs. -/
def removeEscapedQuotes : List Char → List Char
  | [] => []
  | [c] => [c]
  | a :: c :: rest =>
    if a = '\\' && (c = '"' || c = '\'') then removeEscapedQuotes rest
    else a :: removeEscapedQuotes (c :: rest)

mutual

/-- Step 5 of `sanitizeSelector`: the global replace of `/\s{2,}/` by a single space.
Maximal whitespace runs of length at least two become one `' '`; an isolated
whitespace character is kept verbatim. -/
def collapseWS : List Char → List Char
  | [] => []
  | c :: cs => if jsWhitespace c then collapseRun c cs else c :: collapseWS cs

/-- State of `collapseWS` after exactly one whitespace character `first` was read. -/
def collapseRun (first : Char) : List Char → List Char
  | [] => [first]
  | c :: cs =>
    if jsWhitespace c then collapseLong cs else first :: c :: collapseWS cs

/-- State of `collapseWS` inside a whitespace run of length at least two, which is
emitted as a single space when the run ends. -/
def collapseLong : List Char → List Char
  | [] => [' ']
  | c :: cs =>
    if jsWhitespace c then collapseLong cs else ' ' :: c :: collapseWS cs

end

/-- Return shape of `sanitizeSelector`. -/
structure SanitizationResult where
  selector : String
  original : String
  modified : Bool
  warnings : List String

/-- Model of `sanitizeSelector` (utils.ts lines 240-284): trim, strip leading/trailing
dashes, strip surrounding quotes, remove escaped quote pairs, collapse whitespace runs,
final trim.  The guarding `test`/`includes` calls in the source only skip replacements
that would be no-ops, so each replacement is modeled unconditionally; the guards are
reflected in the `warnings` entries. -/
def sanitizeSelector (s : String) : SanitizationResult :=
  let c1 := trimJS s.data
  let c2 := dropEnds dashChar c1
  let c3 := dropEnds quoteChar c2
  let c4 := removeEscapedQuotes c3
  let c5 := collapseWS c4
  let c6 := trimJS c5
  { selector := String.mk c6
    original := s
    modified := decide (String.mk c6 ≠ s)
    warnings :=
      (if c2 ≠ c1 then ["Removed leading/trailing dashes"] else []) ++
      (if c3 ≠ c2 then ["Removed surrounding quotes"] else []) ++
      (if c4 ≠ c3 then ["Removed escaped quotes"] else []) ++
      (if c5 ≠ c4 then ["Collapsed multiple spaces"] else []) }

/-- Return shape of `validateSelector`. -/
structure ValidationResult where
  valid : Bool
  error : Option String

/-- The regex `/^[–\-\s]+$/`: a non-empty string consisting only of dashes and
whitespace. -/
def onlyDashes (l : List Char) : Bool :=
  !l.isEmpty && l.all dashChar

/-- The regex `/^["'""'']+$/`: a non-empty string consisting only of quote characters. -/
def onlyQuotes (l : List Char) : Bool :=
  !l.isEmpty && l.all quoteChar

/-- The regex `/\s–\s/`: an en dash with whitespace on both sides somewhere in the
string. -/
def hasSpacedEmDash : List Char → Bool
  | a :: b :: c :: rest =>
    (jsWhitespace a && b = '–' && jsWhitespace c) || hasSpacedEmDash (b :: c :: rest)
  | _ => false

/-- Model of `validateSelector` (utils.ts lines 289-322).  `cssValid` abstracts the
host CSS parser probed through `querySelector` on a detached element. -/
def validateSelector (cssValid : String → Bool) (selector : String) : ValidationResult :=
  if selector = "" || trimJS selector.data = [] then
    { valid := false, error := some "Selector is empty" }
  else if onlyDashes selector.data then
    { valid := false, error := some "Selector contains only dashes and whitespace" }
  else if onlyQuotes selector.data then
    { valid := false, error := some "Selector contains only quotes" }
  else if hasSpacedEmDash selector.data then
    { valid := false
      error := some "Selector contains em-dash surrounded by spaces (likely markdown artifact)" }
  else if strStartsWith selector "ACTION:" then
    { valid := false
      error := some "Selector appears to be an action command, not a CSS selector" }
  else if cssValid selector then { valid := true, error := none }
  else { valid := false, error := some "Invalid CSS selector syntax" }

/-- Return shape of `cleanAndValidateSelector`. -/
structure CleanResult where
  success : Bool
  selector : Option String
  error : Option String
  warnings : Option (List String)

/-- Model of `cleanAndValidateSelector` (utils.ts lines 327-361): sanitize, then
validate, combining the error texts on failure. -/
def cleanAndValidateSelector (cssValid : String → Bool) (selector : String) : CleanResult :=
  let sanitized := sanitizeSelector selector
  let validation := validateSelector cssValid sanitized.selector
  if !validation.valid then
    { success := false
      selector := none
      error := some ("Invalid selector: " ++ validation.error.getD "" ++ ". Original: " ++
        selector ++ ", Cleaned: " ++ sanitized.selector)
      warnings := none }
  else
    { success := true
      selector := some sanitized.selector
      error := none
      warnings := if sanitized.modified then some sanitized.warnings else none }

/-! ## Runtime JavaScript values (the `unknown` parameter/result values of the executor) -/

/-- Runtime JavaScript values flowing through `command.parameters.value`. -/
inductive JSValue where
  | jsUndefined
  | null
  | bool (b : Bool)
  | num (n : Int)
  | nan
  | str (s : String)
  | arr (elems : List JSValue)

mutual

/-- JavaScript `String(value)` conversion for the values of `JSValue`. -/
def jsToString : JSValue → String
  | .jsUndefined => "undefined"
  | .null => "null"
  | .bool true => "true"
  | .bool false => "false"
  | .num n => toString n
  | .nan => "NaN"
  | .str s => s
  | .arr xs => joinSep "," (jsToStringList xs)

/-- `String(...)` of each element of an array value. -/
def jsToStringList : List JSValue → List String
  | [] => []
  | v :: vs => jsToString v :: jsToStringList vs

end

/-- JavaScript falsiness (`!value`) on `JSValue`. -/
def falsy : JSValue → Bool
  | .jsUndefined => true
  | .null => true
  | .nan => true
  | .bool b => !b
  | .num n => n = 0
  | .str s => s = ""
  | .arr _ => false

/-- Strict equality against the empty-string literal (`value !== ''`). -/
def isEmptyStr : JSValue → Bool
  | .str s => s = ""
  | _ => false

/-- Strict equality against the number literal zero (`value !== 0`). -/
def isZeroNum : JSValue → Bool
  | .num n => n = 0
  | _ => false

/-! ## Action executor (packages/core/src/executor/ActionExecutor.ts) -/

/-- The DOM-interface classes the executor discriminates on through `instanceof`. -/
inductive ElemClass where
  | inputEl
  | textareaEl
  | buttonEl
  | selectEl
  | formEl
  | otherEl
deriving Repr, DecidableEq

/-- One `<option>` of a select element, with the fields `executeSelect` reads and
writes. -/
structure SelectOpt where
  value : String
  selected : Bool
deriving Repr, DecidableEq

/-- The mutable element state visible to the executor: interface class, `type`
attribute, disabledness, current value, checkedness, and option list for selects.
`ariaDisabled` models `getAttribute('aria-disabled') === 'true'`. -/
structure Elem where
  cls : ElemClass
  typeAttr : String := ""
  disabled : Bool := false
  ariaDisabled : Bool := false
  value : String := ""
  checked : Bool := false
  multiple : Bool := false
  options : List SelectOpt := []
deriving Repr, DecidableEq

/-- The `data` payloads the executor attaches to successful results. -/
inductive RData where
  | value (v : JSValue)
  | values (vs : List String)
  | checked (b : Bool)
  | custom (v : Option JSValue)

/-- Model of the `ActionResult` interface (types.ts lines 270-285). -/
structure ActionResult where
  success : Bool
  message : String
  error : Option String := none
  data : Option RData := none

/-- The documented `ActionResult` invariant: a failure carries an error and a success
does not. -/
def ResultOk (r : ActionResult) : Prop :=
  (r.success = false → r.error.isSome = true) ∧ (r.success = true → r.error = none)

/-- The `parameters` record of a command (only `value` is read by the executor). -/
structure ActionParameters where
  value : JSValue := .jsUndefined

/-- Model of the `ActionCommand` interface.  The TypeScript type declares `action` and
`target` as required strings, but the executor's own validation treats both as
possibly missing at runtime, so they are optional here. -/
structure ActionCommand where
  action : Option String := none
  target : Option String := none
  parameters : Option ActionParameters := none
  script : Option String := none

/-- `command.parameters?.value` (undefined when `parameters` is absent). -/
def ActionCommand.paramValue (c : ActionCommand) : JSValue :=
  match c.parameters with
  | some p => p.value
  | none => .jsUndefined

/-- JavaScript truthiness of an optional string field (absent and `''` are falsy). -/
def strTruthy : Option String → Bool
  | none => false
  | some s => s ≠ ""

/-- Model of `ActionExecutor.validateCommand`: an action is required, and either a
target or a script. -/
def validateCommand (cmd : ActionCommand) : Bool × Option String :=
  if !strTruthy cmd.action then (false, some "Action type is required")
  else if !strTruthy cmd.target && !strTruthy cmd.script then
    (false, some "Target selector or script is required")
  else (true, none)

/-- Host-environment services used by the executor: `dom` is the document's
`querySelector` on the live page, `cssValid` the CSS parser probe used by
`validateSelector`, and `runScript` the `new Function`-based script runner (an
exception is an `Except.error`). -/
structure Host where
  dom : String → Option Elem
  cssValid : String → Bool
  runScript : String → Elem → Except String (Option JSValue)

/-- Model of `ActionExecutor.findElement`: sanitize and validate, then query the
sanitized selector (the `querySelector` try/catch that returns null is absorbed in the
total `dom` function). -/
def findElement (h : Host) (selector : String) : Option Elem :=
  let cleaned := cleanAndValidateSelector h.cssValid selector
  if cleaned.success then h.dom (cleaned.selector.getD "") else none

/-- Model of `executeClick`: refuse disabled native buttons/inputs and
`aria-disabled` elements, otherwise click succeeds (the settle wait is timing only). -/
def executeClick (e : Elem) : ActionResult :=
  if (e.cls = .buttonEl || e.cls = .inputEl) && e.disabled then
    { success := false
      message := "Click failed: element is disabled"
      error := some "Target element is disabled and cannot be clicked" }
  else if e.ariaDisabled then
    { success := false
      message := "Click failed: element is disabled (aria-disabled)"
      error := some "Target element has aria-disabled=true" }
  else { success := true, message := "Click executed successfully" }

/-- Model of `executeSetValue` (ActionExecutor.ts lines 202-251).  The native-setter
versus direct-assignment branch has the same state effect (both set `.value` to
`String(value)`); event dispatch and the settle wait are timing only.  Returns the
result together with the updated element. -/
def executeSetValue (e : Elem) (value : JSValue) : ActionResult × Elem :=
  if falsy value && !isEmptyStr value && !isZeroNum value then
    ({ success := false
       message := "Value is required"
       error := some "No value provided for setValue action" }, e)
  else if e.cls = .inputEl || e.cls = .textareaEl then
    ({ success := true
       message := "Value set successfully"
       data := some (.value value) },
     { e with value := jsToString value })
  else
    ({ success := false
       message := "Element is not a text input"
       error := some "Target element does not support setValue" }, e)

/-- Model of `executeSubmit`: only forms are accepted; both the submit-button branch
and the dispatch-event branch report the same success result. -/
def executeSubmit (e : Elem) : ActionResult :=
  if e.cls = .formEl then
    { success := true, message := "Form submitted successfully" }
  else
    { success := false
      message := "Element is not a form"
      error := some "Target element is not a form element" }

/-- The inner loops of the multi-select branch of `executeSelect`: for each requested
value in order, mark every option whose `value` equals `String(val)` as selected and
record `String(val)` once per matching option.  Returns the final option list and the
recorded `selectedValues`. -/
def applySelections (opts : List SelectOpt) : List JSValue → List SelectOpt × List String
  | [] => (opts, [])
  | v :: vs =>
    let sv := jsToString v
    let marked := opts.map (fun o => if o.value = sv then { o with selected := true } else o)
    let pushed := (opts.filter (fun o => o.value = sv)).map (fun _ => sv)
    let rest := applySelections marked vs
    (rest.1, pushed ++ rest.2)

/-- Model of `executeSelect` (ActionExecutor.ts lines 316-405): multi-select with an
array value clears all selections then applies the requested values; single select
sets `value` to `String(value)`; a radio input gets `checked = true`; anything else
fails. -/
def executeSelect (e : Elem) (value : JSValue) : ActionResult × Elem :=
  if e.cls = .selectEl then
    match e.multiple, value with
    | true, .arr vals =>
      let cleared := e.options.map (fun o => { o with selected := false })
      let applied := applySelections cleared vals
      ({ success := true
         message := "Multiple options selected successfully"
         data := some (.values applied.2) },
       { e with options := applied.1 })
    | _, v =>
      ({ success := true
         message := "Option selected successfully"
         data := some (.value v) },
       { e with value := jsToString v })
  else if e.cls = .inputEl && e.typeAttr = "radio" then
    ({ success := true, message := "Radio button selected" },
     { e with checked := true })
  else
    ({ success := false
       message := "Element is not selectable"
       error := some "Target element does not support select action" }, e)

/-- Model of `executeCheck`: applicable only to checkbox/radio inputs; sets `checked`
to the requested boolean. -/
def executeCheck (e : Elem) (checked : Bool) : ActionResult × Elem :=
  if e.cls = .inputEl && (e.typeAttr = "checkbox" || e.typeAttr = "radio") then
    ({ success := true
       message := if checked then "Checkbox checked successfully"
                  else "Checkbox unchecked successfully"
       data := some (.checked checked) },
     { e with checked := checked })
  else
    ({ success := false
       message := "Element is not a checkbox"
       error := some "Target element is not a checkbox or radio button" }, e)

/-- Model of `executeFocus`. -/
def executeFocus (_e : Elem) : ActionResult :=
  { success := true, message := "Element focused successfully" }

/-- Model of `executeScroll`. -/
def executeScroll (_e : Elem) : ActionResult :=
  { success := true, message := "Scrolled to element successfully" }

/-- Model of `executeHover`. -/
def executeHover (_e : Elem) : ActionResult :=
  { success := true, message := "Hover executed successfully" }

/-- Model of `executeCustomScript`: the script runner's exception is caught and turned
into a failure result. -/
def executeCustomScript (h : Host) (script : String) (e : Elem) : ActionResult :=
  match h.runScript script e with
  | .ok r =>
    { success := true
      message := "Custom script executed successfully"
      data := some (.custom r) }
  | .error m =>
    { success := false
      message := "Custom script execution failed"
      error := some m }

/-- Model of `executeAction`: a truthy `script` field takes precedence, otherwise
dispatch on the action string. -/
def executeAction (h : Host) (cmd : ActionCommand) (element : Elem) : ActionResult :=
  if strTruthy cmd.script then executeCustomScript h (cmd.script.getD "") element
  else
    match cmd.action.getD "" with
    | "click" => executeClick element
    | "setValue" => (executeSetValue element cmd.paramValue).1
    | "submit" => executeSubmit element
    | "select" => (executeSelect element cmd.paramValue).1
    | "check" => (executeCheck element true).1
    | "uncheck" => (executeCheck element false).1
    | "focus" => executeFocus element
    | "scroll" => executeScroll element
    | "hover" => executeHover element
    | a =>
      { success := false
        message := "Unknown action type"
        error := some ("Action type " ++ a ++ " is not supported") }

/-- The body of `ActionExecutor.execute` inside its try block.  The one modeled
exception source is `cleanAndValidateSelector(command.target)` when `target` is
absent: `sanitizeSelector` then calls `.trim()` on `undefined` and throws a
`TypeError`, which the catch block of `execute` converts. -/
def executeBody (h : Host) (cmd : ActionCommand) : Except String ActionResult :=
  let validation := validateCommand cmd
  if !validation.1 then
    .ok { success := false, message := "Command validation failed", error := validation.2 }
  else
    match cmd.target with
    | none => .error "Cannot read properties of undefined (reading trim)"
    | some t =>
      let selectorValidation := cleanAndValidateSelector h.cssValid t
      if !selectorValidation.success then
        .ok { success := false, message := "Invalid selector", error := selectorValidation.error }
      else
        match findElement h t with
        | none =>
          .ok { success := false
                message := "Target element not found"
                error := some ("No element matching selector: " ++
                  selectorValidation.selector.getD "" ++ " (original: " ++ t ++ ")") }
        | some element => .ok (executeAction h cmd element)

/-- Model of `ActionExecutor.execute`: run the body and convert any exception into a
failure result. -/
def execute (h : Host) (cmd : ActionCommand) : ActionResult :=
  match executeBody h cmd with
  | .ok r => r
  | .error m => { success := false, message := "Action execution failed", error := some m }

/-- Model of `ActionExecutor.executeBatch` (lines 542-559): sequential execution,
pushing each result and stopping after the first failure (the inter-command 50ms
delay is timing only). -/
def executeBatch (h : Host) : List ActionCommand → List ActionResult
  | [] => []
  | cmd :: rest =>
    let result := execute h cmd
    if result.success then result :: executeBatch h rest else [result]

/-! ## DOM model and scanner (DOMScanner) -/

/-- Scalar state of one DOM element: tag, id, class string, attribute map, aggregated
text content, computed style (`display`, `visibility`, `opacity`) and bounding box. -/
structure NodeData where
  tagName : String
  idAttr : String := ""
  className : String := ""
  attrs : List (String × String) := []
  textContent : String := ""
  display : String := ""
  visibility : String := ""
  opacity : Rat := 1
  width : Rat := 0
  height : Rat := 0

/-- A DOM element node: its own state plus its element children in document order. -/
inductive DNode where
  | mk : NodeData → List DNode → DNode

/-- The scalar state of a node. -/
def DNode.nodeData : DNode → NodeData
  | .mk d _ => d

/-- The element children of a node. -/
def DNode.children : DNode → List DNode
  | .mk _ cs => cs

/-- `element.getAttribute(name)` on the modeled attribute map. -/
def getAttr (d : NodeData) (name : String) : Option String :=
  (d.attrs.find? (fun p => p.1 = name)).map (fun p => p.2)

/-- Model of `isElementVisible` (utils.ts lines 73-86): display none, visibility
hidden, zero opacity, or a bounding box with both zero width and zero height make an
element invisible. -/
def isElementVisible (d : NodeData) : Bool :=
  if d.display = "none" then false
  else if d.visibility = "hidden" then false
  else if d.opacity = 0 then false
  else if d.width = 0 && d.height = 0 then false
  else true

/-- Splitting on `/\s+/` followed by dropping empty tokens (the `className` handling
of `getElementInfo`); `acc` is the current token accumulated in reverse. -/
def wsSplitAux : List Char → List Char → List String
  | [], acc => if acc.isEmpty then [] else [String.mk acc.reverse]
  | c :: cs, acc =>
    if jsWhitespace c then
      if acc.isEmpty then wsSplitAux cs [] else String.mk acc.reverse :: wsSplitAux cs []
    else wsSplitAux cs (c :: acc)

/-- Model of `DOMScanner.getElementInfo`: the space-joined string of lowercase tag,
`#id`, `.class` tokens, and `[data-*="value"]` tokens used for regex filtering. -/
def getElementInfo (d : NodeData) : String :=
  let parts :=
    [toLower d.tagName] ++
    (if d.idAttr ≠ "" then ["#" ++ d.idAttr] else []) ++
    (if d.className ≠ "" then (wsSplitAux d.className.data []).map (fun c => "." ++ c)
     else []) ++
    ((d.attrs.filter (fun p => strStartsWith p.1 "data-")).map
      (fun p => "[" ++ p.1 ++ "=\"" ++ p.2 ++ "\"]"))
  joinSep " " parts

/-- The scanner configuration after `parseSelectors`/`parsePatterns`/`parseElements`
normalization.  Regular-expression objects are modeled as predicates on the element
info string, the custom filter as a predicate on the node, and the browser's
`element.matches` as the `cssMatches` oracle. -/
structure ScanConfig where
  depth : Nat := 10
  includeHidden : Bool := false
  excludeSelectors : Option (List String) := none
  excludePatterns : Option (List (String → Bool)) := none
  includeElements : Option (List String) := none
  excludeElements : Option (List String) := none
  includePatterns : Option (List (String → Bool)) := none
  filter : Option (DNode → Bool) := none
  maxElements : Nat := 1000
  cssMatches : String → DNode → Bool := fun _ _ => false

/-- The descriptor produced for one admitted node, abstracted to its provenance: the
node's scalar state and the recursion depth at which it was admitted
(`buildUIElement` derives every descriptor field from exactly this node). -/
structure ScanDesc where
  node : NodeData
  depth : Nat

mutual

/-- Model of `DOMScanner.scanRecursive` (unnamed/part_015 lines 192-298), with the
running `this.elementCount` threaded explicitly as `count`.  Branch order follows the
source: depth limit, element cap, exclude selectors, exclude element types, exclude
patterns (all five return without visiting children), include element types, include
patterns (skip the node, still visit children), then visibility and the custom filter
decide admission before the children are scanned. -/
def scanRecursive (cfg : ScanConfig) (node : DNode) (depth : Nat) (count : Nat) :
    List ScanDesc × Nat :=
  match node with
  | .mk d cs =>
    if depth > cfg.depth then ([], count)
    else if count ≥ cfg.maxElements then ([], count)
    else if (cfg.excludeSelectors.getD []).any (fun sel => cfg.cssMatches sel (.mk d cs)) then
      ([], count)
    else if (cfg.excludeElements.getD []).contains (toLower d.tagName) then ([], count)
    else if (cfg.excludePatterns.getD []).any (fun p => p (getElementInfo d)) then ([], count)
    else if !(cfg.includeElements.getD []).isEmpty &&
        !(cfg.includeElements.getD []).contains (toLower d.tagName) then
      scanChildren cfg cs (depth + 1) count
    else if !(cfg.includePatterns.getD []).isEmpty &&
        !(cfg.includePatterns.getD []).any (fun p => p (getElementInfo d)) then
      scanChildren cfg cs (depth + 1) count
    else
      let shouldInclude := (cfg.includeHidden || isElementVisible d) &&
        (match cfg.filter with
         | some f => f (.mk d cs)
         | none => true)
      if shouldInclude then
        let p := scanChildren cfg cs (depth + 1) (count + 1)
        (⟨d, depth⟩ :: p.1, p.2)
      else scanChildren cfg cs (depth + 1) count

/-- The child loop of `scanRecursive`: before each child the element cap is checked
and the loop breaks once the cap is reached. -/
def scanChildren (cfg : ScanConfig) (cs : List DNode) (depth : Nat) (count : Nat) :
    List ScanDesc × Nat :=
  match cs with
  | [] => ([], count)
  | c :: rest =>
    if count ≥ cfg.maxElements then ([], count)
    else
      let p := scanRecursive cfg c depth count
      let q := scanChildren cfg rest depth p.2
      (p.1 ++ q.1, q.2)

end

mutual

/-- The same traversal as `scanRecursive` with the element-cap checks removed: its
output lists exactly the qualifying nodes (those an uncapped scan would admit),
which is the reference point for the cap bound. -/
def scanAllNodes (cfg : ScanConfig) (node : DNode) (depth : Nat) : List ScanDesc :=
  match node with
  | .mk d cs =>
    if depth > cfg.depth then []
    else if (cfg.excludeSelectors.getD []).any (fun sel => cfg.cssMatches sel (.mk d cs)) then
      []
    else if (cfg.excludeElements.getD []).contains (toLower d.tagName) then []
    else if (cfg.excludePatterns.getD []).any (fun p => p (getElementInfo d)) then []
    else if !(cfg.includeElements.getD []).isEmpty &&
        !(cfg.includeElements.getD []).contains (toLower d.tagName) then
      scanAllChildren cfg cs (depth + 1)
    else if !(cfg.includePatterns.getD []).isEmpty &&
        !(cfg.includePatterns.getD []).any (fun p => p (getElementInfo d)) then
      scanAllChildren cfg cs (depth + 1)
    else
      let shouldInclude := (cfg.includeHidden || isElementVisible d) &&
        (match cfg.filter with
         | some f => f (.mk d cs)
         | none => true)
      if shouldInclude then ⟨d, depth⟩ :: scanAllChildren cfg cs (depth + 1)
      else scanAllChildren cfg cs (depth + 1)

/-- Child traversal of the uncapped scan. -/
def scanAllChildren (cfg : ScanConfig) (cs : List DNode) (depth : Nat) : List ScanDesc :=
  match cs with
  | [] => []
  | c :: rest => scanAllNodes cfg c depth ++ scanAllChildren cfg rest depth

end

/-- Model of `DOMScanner.scan` on the default-root path: reset the element count and
scan the root at depth 0. -/
def scan (cfg : ScanConfig) (root : DNode) : List ScanDesc :=
  (scanRecursive cfg root 0 0).1

/-- Model of the scan-metadata truncation marker set by `UUICSEngine.scan`
(unnamed/part_011 line 953): the context's `partial` field is
`elements.length >= maxElements`. -/
def engineTruncatedFlag (elements : List ScanDesc) (maxElements : Nat) : Bool :=
  maxElements ≤ elements.length

/-! ## Element classifier (DOMScanner.getElementType) -/

/-- The closed enumeration of semantic element types. -/
inductive ElementType where
  | button
  | input
  | textarea
  | select
  | checkbox
  | radio
  | link
  | form
  | container
  | text
  | other
deriving Repr, DecidableEq

mutual

/-- `element.querySelector('input, button, select, textarea, a') !== null`: some
proper descendant has one of the interactive tags. -/
def hasInteractiveDescendant : DNode → Bool
  | .mk _ cs => interactiveInList cs

/-- Whether a forest contains a node with an interactive tag. -/
def interactiveInList : List DNode → Bool
  | [] => false
  | c :: rest =>
    (["input", "button", "select", "textarea", "a"].contains (toLower c.nodeData.tagName)) ||
    hasInteractiveDescendant c || interactiveInList rest

end

/-- Model of `DOMScanner.isContainer`: a common sectioning tag with at least one
child. -/
def isContainer (d : NodeData) (children : List DNode) : Bool :=
  (["div", "section", "article", "main", "aside", "nav", "header", "footer"].contains
    (toLower d.tagName)) && !children.isEmpty

/-- Model of `DOMScanner.hasSignificantText`: trimmed text longer than three
characters and no interactive descendant. -/
def hasSignificantText (node : DNode) : Bool :=
  (trimJS node.nodeData.textContent.data).length > 3 && !hasInteractiveDescendant node

/-- Model of `DOMScanner.getElementType` (unnamed/part_015 lines 454-512), preserving
the decision order of the source: ARIA role, contenteditable, native tags, input
types, click-handler attributes, container heuristic, significant-text heuristic. -/
def getElementType (node : DNode) : ElementType :=
  match node with
  | .mk d cs =>
    let tag := toLower d.tagName
    let typeAttr := (getAttr d "type").map toLower
    let role := (getAttr d "role").map toLower
    let contentEditable := getAttr d "contenteditable"
    if role = some "button" then .button
    else if role = some "link" then .link
    else if role = some "textbox" then .input
    else if role = some "checkbox" then .checkbox
    else if role = some "radio" then .radio
    else if role = some "combobox" || role = some "listbox" then .select
    else if contentEditable = some "true" || contentEditable = some "" then .input
    else if tag = "button" then .button
    else if tag = "a" then .link
    else if tag = "select" then .select
    else if tag = "textarea" then .textarea
    else if tag = "form" then .form
    else if tag = "datalist" then .select
    else if tag = "output" then .text
    else if tag = "meter" || tag = "progress" then .other
    else if tag = "details" then .button
    else if tag = "dialog" then .container
    else if tag = "fieldset" then .container
    else if tag = "input" then
      if typeAttr = some "checkbox" then .checkbox
      else if typeAttr = some "radio" then .radio
      else if typeAttr = some "submit" || typeAttr = some "button" then .button
      else .input
    else if (getAttr d "onclick").isSome || (getAttr d "ng-click").isSome then .button
    else if isContainer d cs then .container
    else if hasSignificantText (.mk d cs) then .text
    else .other

/-! ## Concrete fixtures used by witnesses and counterexamples -/

/-- A sanitizer stage either returns its input unchanged or strictly shortens it. -/
def StageShrinks (f : List Char → List Char) : Prop :=
  ∀ l, f l = l ∨ (f l).length < l.length

/-- A plainly visible element with the given tag and id. -/
def visibleData (tag id : String) : NodeData :=
  { tagName := tag, idAttr := id, display := "block", visibility := "visible",
    opacity := 1, width := 10, height := 10 }

/-- A visible div wrapping one visible button. -/
def treeDivButton : DNode :=
  .mk (visibleData "div" "wrap") [.mk (visibleData "button" "btn1") []]

/-- Scan configuration excluding the `div` element type. -/
def cfgExcludeDiv : ScanConfig :=
  { excludeElements := some ["div"] }

/-- Scan configuration with all filters at their defaults. -/
def cfgPlain : ScanConfig := {}

/-- Scan configuration with an element cap of two. -/
def cfgCapTwo : ScanConfig :=
  { maxElements := 2 }

/-- A visible div wrapping three visible buttons (four qualifying nodes). -/
def treeFourNodes : DNode :=
  .mk (visibleData "div" "wrap") [.mk (visibleData "button" "b1") [],
    .mk (visibleData "button" "b2") [], .mk (visibleData "button" "b3") []]

/-- A visible element whose bounding box has zero width but non-zero height. -/
def zeroWidthData : NodeData :=
  { tagName := "button", idAttr := "zw", display := "block", visibility := "visible",
    opacity := 1, width := 0, height := 20 }

/-- A one-node tree holding `zeroWidthData`. -/
def treeZeroWidth : DNode :=
  .mk zeroWidthData []

/-- An input element claiming `role="button"` with conflicting native semantics. -/
def roleButtonNode : DNode :=
  .mk { tagName := "input",
        attrs := [("type", "checkbox"), ("role", "button"), ("contenteditable", "true")] } []

/-- A plain text input element. -/
def textInput : Elem :=
  { cls := .inputEl, typeAttr := "text" }

/-- A host on which every selector parses, every query finds `textInput`, and scripts
run without throwing. -/
def hostOk : Host :=
  { dom := fun _ => some textInput
    cssValid := fun _ => true
    runScript := fun _ _ => .ok none }

/-- A host on which every selector parses but only `#ok` resolves to an element. -/
def hostOnlyOk : Host :=
  { dom := fun s => if s = "#ok" then some textInput else none
    cssValid := fun _ => true
    runScript := fun _ _ => .ok none }

/-- A command carrying an action and a script but no target. -/
def scriptOnlyCmd : ActionCommand :=
  { action := some "custom", script := some "element.click()" }

/-- A command that succeeds against `hostOnlyOk`. -/
def okCmd : ActionCommand :=
  { action := some "focus", target := some "#ok" }

/-- A command that fails against `hostOnlyOk` (no element matches). -/
def badCmd : ActionCommand :=
  { action := some "click", target := some "#missing" }

/-- A multiple `<select>` with options `a`, `b`, `c`, all unselected. -/
def abcSelect : Elem :=
  { cls := .selectEl, multiple := true,
    options := [⟨"a", false⟩, ⟨"b", false⟩, ⟨"c", false⟩] }

/-! ## Proof infrastructure -/

/-- Mutual induction principle for the rose-tree DOM: a node property `P` and a forest
property `Q` proved together. -/
theorem DNode.rec2 (P : DNode → Prop) (Q : List DNode → Prop)
    (h1 : ∀ d cs, Q cs → P (.mk d cs))
    (h2 : Q [])
    (h3 : ∀ c rest, P c → Q rest → Q (c :: rest)) :
    (∀ n, P n) ∧ (∀ cs, Q cs) := by
  have key : ∀ (k : Nat),
      (∀ n : DNode, sizeOf n ≤ k → P n) ∧ (∀ cs : List DNode, sizeOf cs ≤ k → Q cs) := by
    intro k
    induction k with
    | zero =>
      constructor
      · intro n hn
        cases n with
        | mk d cs => simp at hn
      · intro cs hcs
        cases cs with
        | nil => exact h2
        | cons c rest => simp at hcs
    | succ k ih =>
      constructor
      · intro n hn
        cases n with
        | mk d cs =>
          apply h1
          apply ih.2
          simp at hn
          omega
      · intro cs hcs
        cases cs with
        | nil => exact h2
        | cons c rest =>
          simp at hcs
          exact h3 c rest (ih.1 c (by omega)) (ih.2 rest (by omega))
  exact ⟨fun n => (key (sizeOf n)).1 n le_rfl, fun cs => (key (sizeOf cs)).2 cs le_rfl⟩

/-! ## Sanitizer stage lemmas (for claim C3) -/

/-- A shrinking stage never lengthens its input. -/
theorem StageShrinks.le {f : List Char → List Char} (hf : StageShrinks f) (l : List Char) :
    (f l).length ≤ l.length := by
  rcases hf l with h | h
  · exact le_of_eq (by rw [h])
  · exact le_of_lt h

/-- `dropWhile` never lengthens. -/
theorem dropWhile_length_le (p : Char → Bool) (l : List Char) :
    (l.dropWhile p).length ≤ l.length := by
  induction l with
  | nil => simp
  | cons c cs ih =>
    by_cases h : p c
    · simp only [List.dropWhile_cons, h, if_true]
      simp
      omega
    · simp [List.dropWhile_cons, h]

/-- Composition of shrinking stages shrinks. -/
theorem StageShrinks.comp {f g : List Char → List Char}
    (hf : StageShrinks f) (hg : StageShrinks g) : StageShrinks (fun l => g (f l)) := by
  intro l
  rcases hf l with h | h
  · simpa [h] using hg l
  · exact Or.inr (lt_of_le_of_lt (hg.le (f l)) h)

/-- `dropWhile` shrinks. -/
theorem dropLeading_shrinks (p : Char → Bool) : StageShrinks (dropLeading p) := by
  intro l
  cases l with
  | nil => exact Or.inl rfl
  | cons c cs =>
    by_cases h : p c
    · right
      have hle := dropWhile_length_le p cs
      simp only [dropLeading, List.dropWhile_cons, h, if_true]
      simp
      omega
    · left
      simp [dropLeading, List.dropWhile_cons, h]

/-- Dropping a trailing run shrinks. -/
theorem dropTrailing_shrinks (p : Char → Bool) : StageShrinks (dropTrailing p) := by
  intro l
  rcases dropLeading_shrinks p l.reverse with h | h
  · left
    unfold dropTrailing
    rw [show l.reverse.dropWhile p = l.reverse from h, List.reverse_reverse]
  · right
    unfold dropTrailing
    rw [List.length_reverse]
    rw [List.length_reverse] at h
    exact h

/-- Dropping both edge runs shrinks. -/
theorem dropEnds_shrinks (p : Char → Bool) : StageShrinks (dropEnds p) :=
  (dropLeading_shrinks p).comp (dropTrailing_shrinks p)

/-- Trimming shrinks. -/
theorem trimJS_shrinks : StageShrinks trimJS :=
  dropEnds_shrinks jsWhitespace

/-- Removing escaped-quote pairs shrinks. -/
theorem removeEscapedQuotes_shrinks : StageShrinks removeEscapedQuotes := by
  have key : ∀ (n : Nat) (l : List Char), l.length ≤ n →
      (removeEscapedQuotes l = l ∨ (removeEscapedQuotes l).length < l.length) := by
    intro n
    induction n with
    | zero =>
      intro l hl
      have : l = [] := List.eq_nil_of_length_eq_zero (by omega)
      subst this
      exact Or.inl rfl
    | succ n ih =>
      intro l hl
      match l with
      | [] => exact Or.inl rfl
      | [c] => exact Or.inl rfl
      | a :: c :: rest =>
        by_cases h : (a = '\\' && (c = '"' || c = '\'')) = true
        · right
          have hrec : removeEscapedQuotes (a :: c :: rest) = removeEscapedQuotes rest := by
            simp [removeEscapedQuotes, h]
          rw [hrec]
          have hlen : rest.length ≤ n := by simp at hl; omega
          rcases ih rest hlen with he | hlt
          · rw [he]; simp; omega
          · simp at hlt ⊢; omega
        · have hrec : removeEscapedQuotes (a :: c :: rest) =
              a :: removeEscapedQuotes (c :: rest) := by
            simp [removeEscapedQuotes, h]
          have hlen : (c :: rest).length ≤ n := by simp at hl ⊢; omega
          rcases ih (c :: rest) hlen with he | hlt
          · left; rw [hrec, he]
          · right; rw [hrec]; simp at hlt ⊢; omega
  intro l
  exact key l.length l le_rfl

/-- Unfolding: collapsing the empty list. -/
theorem collapseWS_nil : collapseWS [] = [] := rfl

/-- Unfolding: a whitespace head enters the single-whitespace state. -/
theorem collapseWS_cons_ws {c : Char} (cs : List Char) (h : jsWhitespace c = true) :
    collapseWS (c :: cs) = collapseRun c cs := by
  simp [collapseWS, h]

/-- Unfolding: a non-whitespace head is emitted unchanged. -/
theorem collapseWS_cons_not {c : Char} (cs : List Char) (h : jsWhitespace c = false) :
    collapseWS (c :: cs) = c :: collapseWS cs := by
  simp [collapseWS, h]

/-- Unfolding: a single trailing whitespace character is kept. -/
theorem collapseRun_nil (f : Char) : collapseRun f [] = [f] := rfl

/-- Unfolding: a second whitespace character starts a long run. -/
theorem collapseRun_cons_ws (f : Char) {c : Char} (cs : List Char)
    (h : jsWhitespace c = true) : collapseRun f (c :: cs) = collapseLong cs := by
  simp [collapseRun, h]

/-- Unfolding: a single whitespace character followed by non-whitespace is kept. -/
theorem collapseRun_cons_not (f : Char) {c : Char} (cs : List Char)
    (h : jsWhitespace c = false) : collapseRun f (c :: cs) = f :: c :: collapseWS cs := by
  simp [collapseRun, h]

/-- Unfolding: a long run at the end of input becomes one space. -/
theorem collapseLong_nil : collapseLong [] = [' '] := rfl

/-- Unfolding: a long run swallows further whitespace. -/
theorem collapseLong_cons_ws {c : Char} (cs : List Char) (h : jsWhitespace c = true) :
    collapseLong (c :: cs) = collapseLong cs := by
  simp [collapseLong, h]

/-- Unfolding: a long run followed by non-whitespace becomes one space. -/
theorem collapseLong_cons_not {c : Char} (cs : List Char) (h : jsWhitespace c = false) :
    collapseLong (c :: cs) = ' ' :: c :: collapseWS cs := by
  simp [collapseLong, h]

/-- Joint length bound for the three whitespace-collapsing states. -/
theorem collapse_length : ∀ (n : Nat) (l : List Char), l.length ≤ n →
    (collapseWS l).length ≤ l.length ∧
    (∀ f, (collapseRun f l).length ≤ l.length + 1) ∧
    (collapseLong l).length ≤ l.length + 1 := by
  intro n
  induction n with
  | zero =>
    intro l hl
    have : l = [] := List.eq_nil_of_length_eq_zero (by omega)
    subst this
    refine ⟨?_, fun f => ?_, ?_⟩ <;> simp [collapseWS_nil, collapseRun_nil, collapseLong_nil]
  | succ n ih =>
    intro l hl
    cases l with
    | nil =>
      refine ⟨?_, fun f => ?_, ?_⟩ <;> simp [collapseWS_nil, collapseRun_nil, collapseLong_nil]
    | cons c cs =>
      have hws := ih cs (by simp at hl; omega)
      refine ⟨?_, fun f => ?_, ?_⟩
      · cases h : jsWhitespace c with
        | true =>
          rw [collapseWS_cons_ws cs h]
          have := hws.2.1 c
          simp only [List.length_cons]
          omega
        | false =>
          rw [collapseWS_cons_not cs h]
          have := hws.1
          simp only [List.length_cons]
          omega
      · cases h : jsWhitespace c with
        | true =>
          rw [collapseRun_cons_ws f cs h]
          have := hws.2.2
          simp only [List.length_cons]
          omega
        | false =>
          rw [collapseRun_cons_not f cs h]
          have := hws.1
          simp only [List.length_cons]
          omega
      · cases h : jsWhitespace c with
        | true =>
          rw [collapseLong_cons_ws cs h]
          have := hws.2.2
          simp only [List.length_cons]
          omega
        | false =>
          rw [collapseLong_cons_not cs h]
          have := hws.1
          simp only [List.length_cons]
          omega

/-- Collapsing whitespace runs shrinks. -/
theorem collapseWS_shrinks : StageShrinks collapseWS := by
  have key : ∀ (n : Nat) (l : List Char), l.length ≤ n →
      (collapseWS l = l ∨ (collapseWS l).length < l.length) := by
    intro n
    induction n with
    | zero =>
      intro l hl
      have : l = [] := List.eq_nil_of_length_eq_zero (by omega)
      subst this
      exact Or.inl rfl
    | succ n ih =>
      intro l hl
      cases l with
      | nil => exact Or.inl rfl
      | cons c cs =>
        cases hw : jsWhitespace c with
        | true =>
          cases cs with
          | nil =>
            left
            rw [collapseWS_cons_ws [] hw, collapseRun_nil]
          | cons c1 cs1 =>
            cases hw1 : jsWhitespace c1 with
            | true =>
              right
              rw [collapseWS_cons_ws (c1 :: cs1) hw, collapseRun_cons_ws c cs1 hw1]
              have := (collapse_length cs1.length cs1 le_rfl).2.2
              simp only [List.length_cons]
              omega
            | false =>
              rw [collapseWS_cons_ws (c1 :: cs1) hw, collapseRun_cons_not c cs1 hw1]
              have hlen : cs1.length ≤ n := by simp at hl; omega
              rcases ih cs1 hlen with he | hlt
              · left; rw [he]
              · right
                simp only [List.length_cons]
                omega
        | false =>
          rw [collapseWS_cons_not cs hw]
          have hlen : cs.length ≤ n := by simp at hl; omega
          rcases ih cs hlen with he | hlt
          · left; rw [he]
          · right
            simp only [List.length_cons]
            omega
  intro l
  exact key l.length l le_rfl

/-- The full sanitizer pipeline on character lists shrinks. -/
theorem sanitizePipeline_shrinks :
    StageShrinks (fun l =>
      trimJS (collapseWS (removeEscapedQuotes (dropEnds quoteChar
        (dropEnds dashChar (trimJS l)))))) :=
  ((((trimJS_shrinks.comp (dropEnds_shrinks dashChar)).comp
    (dropEnds_shrinks quoteChar)).comp removeEscapedQuotes_shrinks).comp
    collapseWS_shrinks).comp trimJS_shrinks

/-! ## Claim C3 -/

/-- C3, counterexample: sanitization is not idempotent.  On the input `"--abc--"`
(straight quotes surrounding dashes) the first pass only strips the quotes — the dash
strip runs before the quote strip — and the second pass then strips the exposed
dashes, so the sanitized selector changes again. -/
theorem C3_counterexample :
    (sanitizeSelector (sanitizeSelector "\"--abc--\"").selector).selector ≠
      (sanitizeSelector "\"--abc--\"").selector := by
  decide

/-- C3 (amended): `sanitize(sanitize(x).selector).selector` can differ from
`sanitize(x).selector` (see the counterexample), but there is still no oscillation:
one sanitization pass either returns its input unchanged or returns a strictly
shorter string, so iterating `sanitizeSelector` reaches a fixed point after at most
`x.length` passes and can never cycle. -/
theorem C3_sanitize_fixes_or_shrinks (s : String) :
    (sanitizeSelector s).selector = s ∨ (sanitizeSelector s).selector.length < s.length := by
  have h := sanitizePipeline_shrinks s.data
  rcases h with he | hlt
  · left
    show String.mk (trimJS (collapseWS (removeEscapedQuotes (dropEnds quoteChar
      (dropEnds dashChar (trimJS s.data)))))) = s
    have he' : trimJS (collapseWS (removeEscapedQuotes (dropEnds quoteChar
      (dropEnds dashChar (trimJS s.data))))) = s.data := he
    rw [he']
  · right
    show (String.mk (trimJS (collapseWS (removeEscapedQuotes (dropEnds quoteChar
      (dropEnds dashChar (trimJS s.data))))))).length < s.length
    exact hlt

/-! ## Executor result lemmas (for claims C2, C4, C5) -/

/-- Click results satisfy the invariant. -/
theorem resultOk_executeClick (e : Elem) : ResultOk (executeClick e) := by
  unfold ResultOk executeClick
  split_ifs <;> simp

/-- setValue results satisfy the invariant. -/
theorem resultOk_executeSetValue (e : Elem) (v : JSValue) :
    ResultOk (executeSetValue e v).1 := by
  unfold ResultOk executeSetValue
  split_ifs <;> simp

/-- Submit results satisfy the invariant. -/
theorem resultOk_executeSubmit (e : Elem) : ResultOk (executeSubmit e) := by
  unfold ResultOk executeSubmit
  split_ifs <;> simp

/-- Select results satisfy the invariant. -/
theorem resultOk_executeSelect (e : Elem) (v : JSValue) :
    ResultOk (executeSelect e v).1 := by
  unfold ResultOk executeSelect
  split_ifs <;> first
    | (split <;> simp)
    | simp

/-- Check/uncheck results satisfy the invariant. -/
theorem resultOk_executeCheck (e : Elem) (b : Bool) : ResultOk (executeCheck e b).1 := by
  unfold ResultOk executeCheck
  split_ifs <;> simp

/-- Custom-script results satisfy the invariant. -/
theorem resultOk_executeCustomScript (h : Host) (s : String) (e : Elem) :
    ResultOk (executeCustomScript h s e) := by
  unfold ResultOk executeCustomScript
  cases h.runScript s e <;> simp

/-- Dispatched action results satisfy the invariant. -/
theorem resultOk_executeAction (h : Host) (cmd : ActionCommand) (e : Elem) :
    ResultOk (executeAction h cmd e) := by
  unfold executeAction
  split
  · exact resultOk_executeCustomScript h _ e
  · split
    · exact resultOk_executeClick e
    · exact resultOk_executeSetValue e _
    · exact resultOk_executeSubmit e
    · exact resultOk_executeSelect e _
    · exact resultOk_executeCheck e true
    · exact resultOk_executeCheck e false
    · refine ⟨?_, ?_⟩ <;> simp [executeFocus]
    · refine ⟨?_, ?_⟩ <;> simp [executeScroll]
    · refine ⟨?_, ?_⟩ <;> simp [executeHover]
    · refine ⟨?_, ?_⟩ <;> simp

/-- A failed sanitize-and-validate pass always reports an error text. -/
theorem cleanAndValidateSelector_error (cssValid : String → Bool) (t : String) :
    (cleanAndValidateSelector cssValid t).success = false →
    (cleanAndValidateSelector cssValid t).error.isSome = true := by
  unfold cleanAndValidateSelector
  dsimp only
  split_ifs <;> simp

/-- Every result returned through the try block satisfies the invariant. -/
theorem resultOk_executeBody (h : Host) (cmd : ActionCommand) (r : ActionResult)
    (hr : executeBody h cmd = .ok r) : ResultOk r := by
  unfold executeBody at hr
  dsimp only at hr
  split_ifs at hr with hval
  · cases hr
    unfold ResultOk validateCommand
    unfold validateCommand at hval
    split_ifs at hval <;> simp_all
  · cases htgt : cmd.target with
    | none => rw [htgt] at hr; cases hr
    | some t =>
      rw [htgt] at hr
      dsimp only at hr
      split_ifs at hr with hsel
      · cases hr
        refine ⟨fun _ => ?_, by simp⟩
        have hfail : (cleanAndValidateSelector h.cssValid t).success = false := by
          simpa using hsel
        simpa using cleanAndValidateSelector_error h.cssValid t hfail
      · cases hfind : findElement h t with
        | none => rw [hfind] at hr; cases hr; exact ⟨fun _ => rfl, by simp⟩
        | some e =>
          rw [hfind] at hr
          cases hr
          exact resultOk_executeAction h cmd e

/-! ## Claim C5 -/

/-- C5: `execute` always returns an `ActionResult` — every exception raised inside the
try block (modeled: the sanitizer's `TypeError` on an absent target, the script
runner's throw) is converted into a failure result — and the returned result
satisfies the invariant: failure implies the error field is set, success implies it
is absent. -/
theorem C5_execute_result_invariant (h : Host) (cmd : ActionCommand) :
    ((execute h cmd).success = false → (execute h cmd).error.isSome = true) ∧
    ((execute h cmd).success = true → (execute h cmd).error = none) := by
  unfold execute
  cases hb : executeBody h cmd with
  | ok r => exact resultOk_executeBody h cmd r hb
  | error m => exact ⟨fun _ => rfl, by simp⟩

/-- C5, witness: the invariant evaluated on a failing command (unknown element) and a
succeeding command against a concrete host. -/
theorem C5_witness :
    (execute hostOnlyOk badCmd).success = false ∧
    (execute hostOnlyOk badCmd).error.isSome = true ∧
    (execute hostOnlyOk okCmd).success = true ∧
    (execute hostOnlyOk okCmd).error = none :=
  ⟨by decide, (C5_execute_result_invariant hostOnlyOk badCmd).1 (by decide),
   by decide, (C5_execute_result_invariant hostOnlyOk okCmd).2 (by decide)⟩

/-! ## Claim C2 -/

/-- C2, counterexample: a command with an action and a script but no target passes
`validateCommand`, yet `execute` fails before any script could run: the unconditional
`cleanAndValidateSelector(command.target)` call throws on the absent target and the
catch block converts this into an execution failure — even on a host whose script
runner always succeeds. -/
theorem C2_counterexample :
    validateCommand scriptOnlyCmd = (true, none) ∧
    execute hostOk scriptOnlyCmd =
      { success := false
        message := "Action execution failed"
        error := some "Cannot read properties of undefined (reading trim)" } :=
  ⟨rfl, rfl⟩

/-- C2 (amended): a command with an action and a script but no target is indeed not
rejected by `validateCommand` (either target or script satisfies it), but it is
rejected before script execution all the same: `execute` unconditionally sanitizes
`command.target`, the sanitizer throws on the absent target, and the result is the
generic execution-failure result, independent of the host.  Script execution is
reached only when a present target sanitizes, validates and resolves. -/
theorem C2_script_only_command_fails_before_script (h : Host) (a s : String)
    (ha : a ≠ "") (hs : s ≠ "") :
    validateCommand { action := some a, target := none, script := some s } = (true, none) ∧
    execute h { action := some a, target := none, script := some s } =
      { success := false
        message := "Action execution failed"
        error := some "Cannot read properties of undefined (reading trim)" } := by
  have hv : validateCommand { action := some a, target := none, script := some s } =
      (true, none) := by
    unfold validateCommand
    simp [strTruthy, ha, hs]
  refine ⟨hv, ?_⟩
  unfold execute executeBody
  rw [hv]
  simp

/-- C2, witness: the amended statement evaluated on a concrete host and command. -/
theorem C2_witness :
    ("custom" ≠ "") ∧ ("doSomething()" ≠ "") ∧
    execute hostOnlyOk
      { action := some "custom", target := none, script := some "doSomething()" } =
      { success := false
        message := "Action execution failed"
        error := some "Cannot read properties of undefined (reading trim)" } :=
  ⟨by decide, by decide,
   (C2_script_only_command_fails_before_script hostOnlyOk "custom" "doSomething()"
     (by decide) (by decide)).2⟩

/-! ## Claim C4 -/

/-- C4, counterexample: `setValue` with the boolean value `false` — which is neither
`undefined` nor `null` — is rejected by the falsy-value guard, so rejection is not
limited to `undefined`/`null`. -/
theorem C4_counterexample :
    (JSValue.bool false ≠ JSValue.jsUndefined) ∧ (JSValue.bool false ≠ JSValue.null) ∧
    executeSetValue textInput (.bool false) =
      ({ success := false
         message := "Value is required"
         error := some "No value provided for setValue action" }, textInput) :=
  ⟨fun h => JSValue.noConfusion h, fun h => JSValue.noConfusion h, rfl⟩

/-- C4 (amended): against a text-input-like element, `setValue` rejects exactly the
JavaScript-falsy values other than the exempted `''` and `0` — that is, `undefined`,
`null`, `false` and `NaN` — and accepts every other value (including `''` and `0`),
applying `String(value)` to the element. -/
theorem C4_setValue_rejection_characterization (e : Elem) (v : JSValue)
    (he : e.cls = ElemClass.inputEl ∨ e.cls = ElemClass.textareaEl) :
    ((executeSetValue e v).1.success = false ↔
      (v = .jsUndefined ∨ v = .null ∨ v = .bool false ∨ v = .nan)) ∧
    ((executeSetValue e v).1.success = true →
      (executeSetValue e v).2.value = jsToString v ∧
      (executeSetValue e v).1.error = none) := by
  have hcls : (e.cls = ElemClass.inputEl || e.cls = ElemClass.textareaEl) = true := by
    rcases he with h | h <;> simp [h]
  unfold executeSetValue
  cases v with
  | jsUndefined => simp [falsy, isEmptyStr, isZeroNum, hcls]
  | null => simp [falsy, isEmptyStr, isZeroNum, hcls]
  | nan => simp [falsy, isEmptyStr, isZeroNum, hcls]
  | bool b => cases b <;> simp [falsy, isEmptyStr, isZeroNum, hcls]
  | num n =>
    by_cases hn : n = 0 <;> simp [falsy, isEmptyStr, isZeroNum, hcls, hn]
  | str s =>
    by_cases hs : s = "" <;> simp [falsy, isEmptyStr, isZeroNum, hcls, hs]
  | arr xs => simp [falsy, isEmptyStr, isZeroNum, hcls]

/-- C4, witness: the empty string and the number zero are accepted on a concrete text
input, and the characterization confirms `false` is rejected. -/
theorem C4_witness :
    (textInput.cls = ElemClass.inputEl ∨ textInput.cls = ElemClass.textareaEl) ∧
    (executeSetValue textInput (.str "")).1.success = true ∧
    (executeSetValue textInput (.num 0)).1.success = true ∧
    ((executeSetValue textInput (.bool false)).1.success = false ↔
      (JSValue.bool false = .jsUndefined ∨ JSValue.bool false = .null ∨
       JSValue.bool false = .bool false ∨ JSValue.bool false = .nan)) :=
  ⟨Or.inl rfl, rfl, rfl,
   (C4_setValue_rejection_characterization textInput (.bool false) (Or.inl rfl)).1⟩

/-! ## Multi-select lemmas (for claim C7) -/

/-- Mapping a constant over a filtered list is a replicate of the match count. -/
theorem filter_map_const (p : SelectOpt → Bool) (c : String) : ∀ l : List SelectOpt,
    (l.filter p).map (fun _ => c) = List.replicate (l.countP p) c := by
  intro l
  induction l with
  | nil => rfl
  | cons a as ih =>
    by_cases hp : p a
    · simp [List.filter_cons, List.countP_cons, hp, List.replicate_succ, ih]
    · simp [List.filter_cons, List.countP_cons, hp, ih]

/-- The per-value match count, transported to the option-value list. -/
theorem countP_value_eq_count (opts : List SelectOpt) (sv : String) :
    opts.countP (fun o => o.value = sv) = (opts.map SelectOpt.value).count sv := by
  rw [List.count, List.countP_map]
  apply List.countP_congr
  intro o _
  by_cases h : o.value = sv
  · simp [h]
  · simp [h]

/-- The pushed values of one requested value depend only on the option values. -/
theorem filter_values_eq (opts opts2 : List SelectOpt)
    (h : opts.map SelectOpt.value = opts2.map SelectOpt.value) (sv : String) :
    (opts.filter (fun o => o.value = sv)).map (fun _ => sv) =
      (opts2.filter (fun o => o.value = sv)).map (fun _ => sv) := by
  rw [filter_map_const, filter_map_const, countP_value_eq_count, countP_value_eq_count, h]

/-- Marking options as selected preserves their values. -/
theorem mark_preserves_values (opts : List SelectOpt) (sv : String) :
    (opts.map (fun o => if o.value = sv then { o with selected := true } else o)).map
      SelectOpt.value = opts.map SelectOpt.value := by
  rw [List.map_map]
  apply List.map_congr_left
  intro o _
  by_cases h : o.value = sv <;> simp [h]

/-- The final option list of `applySelections`: each option whose value occurs among
the requested (stringified) values is selected, the rest are untouched. -/
theorem applySelections_options (vals : List JSValue) : ∀ opts : List SelectOpt,
    (applySelections opts vals).1 = opts.map (fun o =>
      if (vals.map jsToString).contains o.value then { o with selected := true } else o) := by
  induction vals with
  | nil =>
    intro opts
    simp [applySelections]
  | cons v vs ih =>
    intro opts
    show (applySelections (opts.map (fun o =>
        if o.value = jsToString v then { o with selected := true } else o)) vs).1 = _
    rw [ih]
    rw [List.map_map]
    apply List.map_congr_left
    intro o _
    by_cases h1 : o.value = jsToString v
    · simp only [Function.comp_apply, h1, if_true]
      simp [List.contains_cons]
    · simp only [Function.comp_apply, h1, if_false]
      by_cases h2 : (vs.map jsToString).contains o.value
      · simp [List.contains_cons, h1, h2]
      · simp [List.contains_cons, h1, h2]

/-- The reported `selectedValues` of `applySelections`: for each requested value in
order, its string form once per option with that value. -/
theorem applySelections_values (vals : List JSValue) : ∀ opts opts2 : List SelectOpt,
    opts.map SelectOpt.value = opts2.map SelectOpt.value →
    (applySelections opts vals).2 = vals.flatMap (fun v =>
      (opts2.filter (fun o => o.value = jsToString v)).map (fun _ => jsToString v)) := by
  induction vals with
  | nil =>
    intro opts opts2 _
    simp [applySelections]
  | cons v vs ih =>
    intro opts opts2 hvv
    show ((opts.filter (fun o => o.value = jsToString v)).map (fun _ => jsToString v) ++
      (applySelections (opts.map (fun o =>
        if o.value = jsToString v then { o with selected := true } else o)) vs).2) = _
    rw [filter_values_eq opts opts2 hvv]
    rw [ih _ opts2 (by rw [mark_preserves_values]; exact hvv)]
    simp [List.flatMap_cons]

/-- Under distinct option values, the per-option applied values collapse to the
requested values that found a match, in request order. -/
theorem flatMap_filter_nodup (opts : List SelectOpt)
    (hnd : (opts.map SelectOpt.value).Nodup) : ∀ vals : List JSValue,
    vals.flatMap (fun v =>
      (opts.filter (fun o => o.value = jsToString v)).map (fun _ => jsToString v)) =
    (vals.map jsToString).filter (fun sv => (opts.map SelectOpt.value).contains sv) := by
  intro vals
  induction vals with
  | nil => rfl
  | cons v vs ih =>
    rw [List.flatMap_cons, List.map_cons, List.filter_cons]
    rw [filter_map_const, countP_value_eq_count, ih]
    by_cases hc : (opts.map SelectOpt.value).contains (jsToString v)
    · have hcount : (opts.map SelectOpt.value).count (jsToString v) = 1 := by
        have hle := List.nodup_iff_count_le_one.mp hnd (jsToString v)
        have hge : 1 ≤ (opts.map SelectOpt.value).count (jsToString v) := by
          rw [List.one_le_count_iff]
          simpa using hc
        omega
      rw [hcount, hc]
      simp
    · have hcount : (opts.map SelectOpt.value).count (jsToString v) = 0 := by
        rw [List.count_eq_zero]
        simpa using hc
      rw [hcount]
      simp only [List.replicate_zero, List.nil_append]
      rw [Bool.eq_false_iff.mpr hc]
      simp

/-! ## Claim C7 -/

/-- C7: on a multi-select element, `select` with an array value succeeds, clears every
previous selection and selects exactly the options whose value equals one of the
stringified requested values; requested values with no matching option are silently
ignored; and the result's `data.values` lists the applied value strings (once per
matching option, which under distinct option values is exactly the requested values
that found a match, in request order). -/
theorem C7_multi_select_semantics (e : Elem) (vals : List JSValue)
    (hcls : e.cls = ElemClass.selectEl) (hm : e.multiple = true) :
    (executeSelect e (.arr vals)).1.success = true ∧
    (executeSelect e (.arr vals)).1.error = none ∧
    (executeSelect e (.arr vals)).2.options = e.options.map (fun o =>
      if (vals.map jsToString).contains o.value then { o with selected := true }
      else { o with selected := false }) ∧
    (executeSelect e (.arr vals)).1.data = some (.values (vals.flatMap (fun v =>
      (e.options.filter (fun o => o.value = jsToString v)).map (fun _ => jsToString v)))) ∧
    ((e.options.map SelectOpt.value).Nodup →
      (executeSelect e (.arr vals)).1.data = some (.values
        ((vals.map jsToString).filter (fun sv =>
          (e.options.map SelectOpt.value).contains sv)))) := by
  have hopts : (executeSelect e (.arr vals)).2.options = e.options.map (fun o =>
      if (vals.map jsToString).contains o.value then { o with selected := true }
      else { o with selected := false }) := by
    simp only [executeSelect, hcls, if_true, hm]
    rw [applySelections_options]
    rw [List.map_map]
    apply List.map_congr_left
    intro o _
    by_cases h : (vals.map jsToString).contains o.value <;> simp [h]
  have hvalues : (executeSelect e (.arr vals)).1.data = some (.values (vals.flatMap (fun v =>
      (e.options.filter (fun o => o.value = jsToString v)).map (fun _ => jsToString v)))) := by
    simp only [executeSelect, hcls, if_true, hm]
    rw [applySelections_values vals _ e.options]
    rw [List.map_map]
    apply List.map_congr_left
    intro o _
    simp
  refine ⟨by simp [executeSelect, hcls, hm], by simp [executeSelect, hcls, hm],
    hopts, hvalues, ?_⟩
  intro hnd
  rw [hvalues, flatMap_filter_nodup e.options hnd vals]

/-- C7, witness: the specified `[a, b, c]` example — selecting `['a','c']` on a fresh
multi-select leaves exactly `a` and `c` selected, `b` unselected, and reports
`data.values = ['a','c']`. -/
theorem C7_witness :
    (abcSelect.cls = ElemClass.selectEl) ∧ (abcSelect.multiple = true) ∧
    (executeSelect abcSelect (.arr [.str "a", .str "c"])).1.success = true ∧
    (executeSelect abcSelect (.arr [.str "a", .str "c"])).2.options =
      [⟨"a", true⟩, ⟨"b", false⟩, ⟨"c", true⟩] ∧
    (executeSelect abcSelect (.arr [.str "a", .str "c"])).1.data =
      some (.values ["a", "c"]) := by
  have h := C7_multi_select_semantics abcSelect [.str "a", .str "c"] rfl rfl
  refine ⟨rfl, rfl, h.1, ?_, ?_⟩
  · rw [h.2.2.1]
    rfl
  · rw [h.2.2.2.1]
    rfl

/-! ## Claim C8 -/

/-- C8: `executeBatch` executes the commands strictly in order; when every command
succeeds it returns one result per command in order, and in general it stops at the
first failing command, returning exactly the results up to and including that
failure. -/
theorem C8_batch_short_circuit (h : Host) :
    (∀ cmds : List ActionCommand, (∀ x ∈ cmds, (execute h x).success = true) →
      executeBatch h cmds = cmds.map (execute h)) ∧
    (∀ (pre : List ActionCommand) (c : ActionCommand) (post : List ActionCommand),
      (∀ x ∈ pre, (execute h x).success = true) → (execute h c).success = false →
      executeBatch h (pre ++ c :: post) = pre.map (execute h) ++ [execute h c]) := by
  constructor
  · intro cmds hall
    induction cmds with
    | nil => rfl
    | cons cmd rest ih =>
      have hc := hall cmd (by simp)
      unfold executeBatch
      dsimp only
      rw [hc]
      simp only [if_true, List.map_cons]
      rw [ih (fun x hx => hall x (List.mem_cons_of_mem cmd hx))]
  · intro pre c post hpre hc
    induction pre with
    | nil =>
      rw [List.nil_append]
      unfold executeBatch
      dsimp only
      rw [hc]
      simp
    | cons p pre2 ih =>
      have hp := hpre p (by simp)
      show executeBatch h (p :: (pre2 ++ c :: post)) = _
      unfold executeBatch
      dsimp only
      rw [hp]
      simp only [if_true, List.map_cons, List.cons_append]
      rw [ih (fun x hx => hpre x (List.mem_cons_of_mem p hx))]

/-- C8, witness: `executeBatch([ok, fail, ok])` on a concrete host returns exactly the
two results of the first two commands. -/
theorem C8_witness :
    (∀ x ∈ [okCmd], (execute hostOnlyOk x).success = true) ∧
    (execute hostOnlyOk badCmd).success = false ∧
    executeBatch hostOnlyOk [okCmd, badCmd, okCmd] =
      [execute hostOnlyOk okCmd, execute hostOnlyOk badCmd] ∧
    (executeBatch hostOnlyOk [okCmd, badCmd, okCmd]).length = 2 := by
  have hpre : ∀ x ∈ [okCmd], (execute hostOnlyOk x).success = true := by
    intro x hx
    rw [List.mem_singleton.mp hx]
    decide
  have hfail : (execute hostOnlyOk badCmd).success = false := by decide
  have hmain := (C8_batch_short_circuit hostOnlyOk).2 [okCmd] badCmd [okCmd] hpre hfail
  simp only [List.singleton_append, List.map_cons, List.map_nil] at hmain
  exact ⟨hpre, hfail, hmain, by rw [hmain]; rfl⟩

/-! ## Scanner branch equations (for claims C1 and C6) -/

/-- Branch: recursion depth exceeded. -/
theorem scanRecursive_eq_depth (cfg : ScanConfig) (d : NodeData) (cs : List DNode)
    (depth count : Nat) (h1 : depth > cfg.depth) :
    scanRecursive cfg (.mk d cs) depth count = ([], count) := by
  simp only [scanRecursive]
  rw [if_pos h1]

/-- Branch: element cap reached on entry. -/
theorem scanRecursive_eq_cap (cfg : ScanConfig) (d : NodeData) (cs : List DNode)
    (depth count : Nat) (h1 : ¬depth > cfg.depth) (h2 : count ≥ cfg.maxElements) :
    scanRecursive cfg (.mk d cs) depth count = ([], count) := by
  simp only [scanRecursive]
  rw [if_neg h1, if_pos h2]

/-- Branch: an exclude selector matches — subtree pruned. -/
theorem scanRecursive_eq_exclSel (cfg : ScanConfig) (d : NodeData) (cs : List DNode)
    (depth count : Nat) (h1 : ¬depth > cfg.depth) (h2 : ¬count ≥ cfg.maxElements)
    (h3 : ((cfg.excludeSelectors.getD []).any
      (fun sel => cfg.cssMatches sel (.mk d cs))) = true) :
    scanRecursive cfg (.mk d cs) depth count = ([], count) := by
  simp only [scanRecursive]
  rw [if_neg h1, if_neg h2, if_pos h3]

/-- Branch: the element type is excluded — subtree pruned. -/
theorem scanRecursive_eq_exclElem (cfg : ScanConfig) (d : NodeData) (cs : List DNode)
    (depth count : Nat) (h1 : ¬depth > cfg.depth) (h2 : ¬count ≥ cfg.maxElements)
    (h3 : ¬((cfg.excludeSelectors.getD []).any
      (fun sel => cfg.cssMatches sel (.mk d cs))) = true)
    (h4 : ((cfg.excludeElements.getD []).contains (toLower d.tagName)) = true) :
    scanRecursive cfg (.mk d cs) depth count = ([], count) := by
  simp only [scanRecursive]
  rw [if_neg h1, if_neg h2, if_neg h3, if_pos h4]

/-- Branch: an exclude pattern matches — subtree pruned. -/
theorem scanRecursive_eq_exclPat (cfg : ScanConfig) (d : NodeData) (cs : List DNode)
    (depth count : Nat) (h1 : ¬depth > cfg.depth) (h2 : ¬count ≥ cfg.maxElements)
    (h3 : ¬((cfg.excludeSelectors.getD []).any
      (fun sel => cfg.cssMatches sel (.mk d cs))) = true)
    (h4 : ¬((cfg.excludeElements.getD []).contains (toLower d.tagName)) = true)
    (h5 : ((cfg.excludePatterns.getD []).any (fun p => p (getElementInfo d))) = true) :
    scanRecursive cfg (.mk d cs) depth count = ([], count) := by
  simp only [scanRecursive]
  rw [if_neg h1, if_neg h2, if_neg h3, if_neg h4, if_pos h5]

/-- Branch: the element type misses the include list — node skipped, children visited. -/
theorem scanRecursive_eq_inclElemSkip (cfg : ScanConfig) (d : NodeData) (cs : List DNode)
    (depth count : Nat) (h1 : ¬depth > cfg.depth) (h2 : ¬count ≥ cfg.maxElements)
    (h3 : ¬((cfg.excludeSelectors.getD []).any
      (fun sel => cfg.cssMatches sel (.mk d cs))) = true)
    (h4 : ¬((cfg.excludeElements.getD []).contains (toLower d.tagName)) = true)
    (h5 : ¬((cfg.excludePatterns.getD []).any (fun p => p (getElementInfo d))) = true)
    (h6 : ((!(cfg.includeElements.getD []).isEmpty &&
      !(cfg.includeElements.getD []).contains (toLower d.tagName))) = true) :
    scanRecursive cfg (.mk d cs) depth count = scanChildren cfg cs (depth + 1) count := by
  simp only [scanRecursive]
  rw [if_neg h1, if_neg h2, if_neg h3, if_neg h4, if_neg h5, if_pos h6]

/-- Branch: no include pattern matches — node skipped, children visited. -/
theorem scanRecursive_eq_inclPatSkip (cfg : ScanConfig) (d : NodeData) (cs : List DNode)
    (depth count : Nat) (h1 : ¬depth > cfg.depth) (h2 : ¬count ≥ cfg.maxElements)
    (h3 : ¬((cfg.excludeSelectors.getD []).any
      (fun sel => cfg.cssMatches sel (.mk d cs))) = true)
    (h4 : ¬((cfg.excludeElements.getD []).contains (toLower d.tagName)) = true)
    (h5 : ¬((cfg.excludePatterns.getD []).any (fun p => p (getElementInfo d))) = true)
    (h6 : ¬((!(cfg.includeElements.getD []).isEmpty &&
      !(cfg.includeElements.getD []).contains (toLower d.tagName))) = true)
    (h7 : ((!(cfg.includePatterns.getD []).isEmpty &&
      !(cfg.includePatterns.getD []).any (fun p => p (getElementInfo d)))) = true) :
    scanRecursive cfg (.mk d cs) depth count = scanChildren cfg cs (depth + 1) count := by
  simp only [scanRecursive]
  rw [if_neg h1, if_neg h2, if_neg h3, if_neg h4, if_neg h5, if_neg h6, if_pos h7]

/-- Branch: the node passes every filter and is admitted before its children. -/
theorem scanRecursive_eq_push (cfg : ScanConfig) (d : NodeData) (cs : List DNode)
    (depth count : Nat) (h1 : ¬depth > cfg.depth) (h2 : ¬count ≥ cfg.maxElements)
    (h3 : ¬((cfg.excludeSelectors.getD []).any
      (fun sel => cfg.cssMatches sel (.mk d cs))) = true)
    (h4 : ¬((cfg.excludeElements.getD []).contains (toLower d.tagName)) = true)
    (h5 : ¬((cfg.excludePatterns.getD []).any (fun p => p (getElementInfo d))) = true)
    (h6 : ¬((!(cfg.includeElements.getD []).isEmpty &&
      !(cfg.includeElements.getD []).contains (toLower d.tagName))) = true)
    (h7 : ¬((!(cfg.includePatterns.getD []).isEmpty &&
      !(cfg.includePatterns.getD []).any (fun p => p (getElementInfo d)))) = true)
    (h8 : ((cfg.includeHidden || isElementVisible d) &&
      (match cfg.filter with
       | some f => f (.mk d cs)
       | none => true)) = true) :
    scanRecursive cfg (.mk d cs) depth count =
      (⟨d, depth⟩ :: (scanChildren cfg cs (depth + 1) (count + 1)).1,
        (scanChildren cfg cs (depth + 1) (count + 1)).2) := by
  simp only [scanRecursive]
  rw [if_neg h1, if_neg h2, if_neg h3, if_neg h4, if_neg h5, if_neg h6, if_neg h7]
  rw [if_pos h8]

/-- Branch: the node fails visibility or the custom filter — skipped, children
visited. -/
theorem scanRecursive_eq_skip (cfg : ScanConfig) (d : NodeData) (cs : List DNode)
    (depth count : Nat) (h1 : ¬depth > cfg.depth) (h2 : ¬count ≥ cfg.maxElements)
    (h3 : ¬((cfg.excludeSelectors.getD []).any
      (fun sel => cfg.cssMatches sel (.mk d cs))) = true)
    (h4 : ¬((cfg.excludeElements.getD []).contains (toLower d.tagName)) = true)
    (h5 : ¬((cfg.excludePatterns.getD []).any (fun p => p (getElementInfo d))) = true)
    (h6 : ¬((!(cfg.includeElements.getD []).isEmpty &&
      !(cfg.includeElements.getD []).contains (toLower d.tagName))) = true)
    (h7 : ¬((!(cfg.includePatterns.getD []).isEmpty &&
      !(cfg.includePatterns.getD []).any (fun p => p (getElementInfo d)))) = true)
    (h8 : ¬((cfg.includeHidden || isElementVisible d) &&
      (match cfg.filter with
       | some f => f (.mk d cs)
       | none => true)) = true) :
    scanRecursive cfg (.mk d cs) depth count = scanChildren cfg cs (depth + 1) count := by
  simp only [scanRecursive]
  rw [if_neg h1, if_neg h2, if_neg h3, if_neg h4, if_neg h5, if_neg h6, if_neg h7]
  rw [if_neg h8]

/-- Child loop on the empty forest. -/
theorem scanChildren_eq_nil (cfg : ScanConfig) (depth count : Nat) :
    scanChildren cfg [] depth count = ([], count) := by
  simp only [scanChildren]

/-- Child loop break on a reached cap. -/
theorem scanChildren_eq_cap (cfg : ScanConfig) (c : DNode) (rest : List DNode)
    (depth count : Nat) (h : count ≥ cfg.maxElements) :
    scanChildren cfg (c :: rest) depth count = ([], count) := by
  simp only [scanChildren]
  rw [if_pos h]

/-- Child loop step below the cap. -/
theorem scanChildren_eq_cons (cfg : ScanConfig) (c : DNode) (rest : List DNode)
    (depth count : Nat) (h : ¬count ≥ cfg.maxElements) :
    scanChildren cfg (c :: rest) depth count =
      ((scanRecursive cfg c depth count).1 ++
        (scanChildren cfg rest depth (scanRecursive cfg c depth count).2).1,
       (scanChildren cfg rest depth (scanRecursive cfg c depth count).2).2) := by
  simp only [scanChildren]
  rw [if_neg h]

/-- Capless branch: depth exceeded. -/
theorem scanAllNodes_eq_depth (cfg : ScanConfig) (d : NodeData) (cs : List DNode)
    (depth : Nat) (h1 : depth > cfg.depth) :
    scanAllNodes cfg (.mk d cs) depth = [] := by
  simp only [scanAllNodes]
  rw [if_pos h1]

/-- Capless branch: an exclude selector matches. -/
theorem scanAllNodes_eq_exclSel (cfg : ScanConfig) (d : NodeData) (cs : List DNode)
    (depth : Nat) (h1 : ¬depth > cfg.depth)
    (h3 : ((cfg.excludeSelectors.getD []).any
      (fun sel => cfg.cssMatches sel (.mk d cs))) = true) :
    scanAllNodes cfg (.mk d cs) depth = [] := by
  simp only [scanAllNodes]
  rw [if_neg h1, if_pos h3]

/-- Capless branch: the element type is excluded. -/
theorem scanAllNodes_eq_exclElem (cfg : ScanConfig) (d : NodeData) (cs : List DNode)
    (depth : Nat) (h1 : ¬depth > cfg.depth)
    (h3 : ¬((cfg.excludeSelectors.getD []).any
      (fun sel => cfg.cssMatches sel (.mk d cs))) = true)
    (h4 : ((cfg.excludeElements.getD []).contains (toLower d.tagName)) = true) :
    scanAllNodes cfg (.mk d cs) depth = [] := by
  simp only [scanAllNodes]
  rw [if_neg h1, if_neg h3, if_pos h4]

/-- Capless branch: an exclude pattern matches. -/
theorem scanAllNodes_eq_exclPat (cfg : ScanConfig) (d : NodeData) (cs : List DNode)
    (depth : Nat) (h1 : ¬depth > cfg.depth)
    (h3 : ¬((cfg.excludeSelectors.getD []).any
      (fun sel => cfg.cssMatches sel (.mk d cs))) = true)
    (h4 : ¬((cfg.excludeElements.getD []).contains (toLower d.tagName)) = true)
    (h5 : ((cfg.excludePatterns.getD []).any (fun p => p (getElementInfo d))) = true) :
    scanAllNodes cfg (.mk d cs) depth = [] := by
  simp only [scanAllNodes]
  rw [if_neg h1, if_neg h3, if_neg h4, if_pos h5]

/-- Capless branch: include-element skip. -/
theorem scanAllNodes_eq_inclElemSkip (cfg : ScanConfig) (d : NodeData) (cs : List DNode)
    (depth : Nat) (h1 : ¬depth > cfg.depth)
    (h3 : ¬((cfg.excludeSelectors.getD []).any
      (fun sel => cfg.cssMatches sel (.mk d cs))) = true)
    (h4 : ¬((cfg.excludeElements.getD []).contains (toLower d.tagName)) = true)
    (h5 : ¬((cfg.excludePatterns.getD []).any (fun p => p (getElementInfo d))) = true)
    (h6 : ((!(cfg.includeElements.getD []).isEmpty &&
      !(cfg.includeElements.getD []).contains (toLower d.tagName))) = true) :
    scanAllNodes cfg (.mk d cs) depth = scanAllChildren cfg cs (depth + 1) := by
  simp only [scanAllNodes]
  rw [if_neg h1, if_neg h3, if_neg h4, if_neg h5, if_pos h6]

/-- Capless branch: include-pattern skip. -/
theorem scanAllNodes_eq_inclPatSkip (cfg : ScanConfig) (d : NodeData) (cs : List DNode)
    (depth : Nat) (h1 : ¬depth > cfg.depth)
    (h3 : ¬((cfg.excludeSelectors.getD []).any
      (fun sel => cfg.cssMatches sel (.mk d cs))) = true)
    (h4 : ¬((cfg.excludeElements.getD []).contains (toLower d.tagName)) = true)
    (h5 : ¬((cfg.excludePatterns.getD []).any (fun p => p (getElementInfo d))) = true)
    (h6 : ¬((!(cfg.includeElements.getD []).isEmpty &&
      !(cfg.includeElements.getD []).contains (toLower d.tagName))) = true)
    (h7 : ((!(cfg.includePatterns.getD []).isEmpty &&
      !(cfg.includePatterns.getD []).any (fun p => p (getElementInfo d)))) = true) :
    scanAllNodes cfg (.mk d cs) depth = scanAllChildren cfg cs (depth + 1) := by
  simp only [scanAllNodes]
  rw [if_neg h1, if_neg h3, if_neg h4, if_neg h5, if_neg h6, if_pos h7]

/-- Capless branch: the node is admitted. -/
theorem scanAllNodes_eq_push (cfg : ScanConfig) (d : NodeData) (cs : List DNode)
    (depth : Nat) (h1 : ¬depth > cfg.depth)
    (h3 : ¬((cfg.excludeSelectors.getD []).any
      (fun sel => cfg.cssMatches sel (.mk d cs))) = true)
    (h4 : ¬((cfg.excludeElements.getD []).contains (toLower d.tagName)) = true)
    (h5 : ¬((cfg.excludePatterns.getD []).any (fun p => p (getElementInfo d))) = true)
    (h6 : ¬((!(cfg.includeElements.getD []).isEmpty &&
      !(cfg.includeElements.getD []).contains (toLower d.tagName))) = true)
    (h7 : ¬((!(cfg.includePatterns.getD []).isEmpty &&
      !(cfg.includePatterns.getD []).any (fun p => p (getElementInfo d)))) = true)
    (h8 : ((cfg.includeHidden || isElementVisible d) &&
      (match cfg.filter with
       | some f => f (.mk d cs)
       | none => true)) = true) :
    scanAllNodes cfg (.mk d cs) depth = ⟨d, depth⟩ :: scanAllChildren cfg cs (depth + 1) := by
  simp only [scanAllNodes]
  rw [if_neg h1, if_neg h3, if_neg h4, if_neg h5, if_neg h6, if_neg h7]
  rw [if_pos h8]

/-- Capless branch: the node fails visibility or the custom filter. -/
theorem scanAllNodes_eq_skip (cfg : ScanConfig) (d : NodeData) (cs : List DNode)
    (depth : Nat) (h1 : ¬depth > cfg.depth)
    (h3 : ¬((cfg.excludeSelectors.getD []).any
      (fun sel => cfg.cssMatches sel (.mk d cs))) = true)
    (h4 : ¬((cfg.excludeElements.getD []).contains (toLower d.tagName)) = true)
    (h5 : ¬((cfg.excludePatterns.getD []).any (fun p => p (getElementInfo d))) = true)
    (h6 : ¬((!(cfg.includeElements.getD []).isEmpty &&
      !(cfg.includeElements.getD []).contains (toLower d.tagName))) = true)
    (h7 : ¬((!(cfg.includePatterns.getD []).isEmpty &&
      !(cfg.includePatterns.getD []).any (fun p => p (getElementInfo d)))) = true)
    (h8 : ¬((cfg.includeHidden || isElementVisible d) &&
      (match cfg.filter with
       | some f => f (.mk d cs)
       | none => true)) = true) :
    scanAllNodes cfg (.mk d cs) depth = scanAllChildren cfg cs (depth + 1) := by
  simp only [scanAllNodes]
  rw [if_neg h1, if_neg h3, if_neg h4, if_neg h5, if_neg h6, if_neg h7]
  rw [if_neg h8]

/-- Capless child loop equations. -/
theorem scanAllChildren_eq_nil (cfg : ScanConfig) (depth : Nat) :
    scanAllChildren cfg [] depth = [] := by
  simp only [scanAllChildren]

/-- Capless child loop step. -/
theorem scanAllChildren_eq_cons (cfg : ScanConfig) (c : DNode) (rest : List DNode)
    (depth : Nat) :
    scanAllChildren cfg (c :: rest) depth =
      scanAllNodes cfg c depth ++ scanAllChildren cfg rest depth := by
  simp only [scanAllChildren]

/-! ## Scanner lemmas (for claim C6) -/

/-- The element count returned by the scan equals the running count plus the number of
descriptors produced. -/
theorem scan_count_increment (cfg : ScanConfig) :
    (∀ (node : DNode) (depth count : Nat),
      (scanRecursive cfg node depth count).2 =
        count + (scanRecursive cfg node depth count).1.length) ∧
    (∀ (cs : List DNode) (depth count : Nat),
      (scanChildren cfg cs depth count).2 =
        count + (scanChildren cfg cs depth count).1.length) := by
  apply DNode.rec2
  · intro d cs ih depth count
    by_cases h1 : depth > cfg.depth
    · rw [scanRecursive_eq_depth cfg d cs depth count h1]
      simp
    by_cases h2 : count ≥ cfg.maxElements
    · rw [scanRecursive_eq_cap cfg d cs depth count h1 h2]
      simp
    by_cases h3 : ((cfg.excludeSelectors.getD []).any
        (fun sel => cfg.cssMatches sel (.mk d cs))) = true
    · rw [scanRecursive_eq_exclSel cfg d cs depth count h1 h2 h3]
      simp
    by_cases h4 : ((cfg.excludeElements.getD []).contains (toLower d.tagName)) = true
    · rw [scanRecursive_eq_exclElem cfg d cs depth count h1 h2 h3 h4]
      simp
    by_cases h5 : ((cfg.excludePatterns.getD []).any (fun p => p (getElementInfo d))) = true
    · rw [scanRecursive_eq_exclPat cfg d cs depth count h1 h2 h3 h4 h5]
      simp
    by_cases h6 : ((!(cfg.includeElements.getD []).isEmpty &&
        !(cfg.includeElements.getD []).contains (toLower d.tagName))) = true
    · rw [scanRecursive_eq_inclElemSkip cfg d cs depth count h1 h2 h3 h4 h5 h6]
      exact ih (depth + 1) count
    by_cases h7 : ((!(cfg.includePatterns.getD []).isEmpty &&
        !(cfg.includePatterns.getD []).any (fun p => p (getElementInfo d)))) = true
    · rw [scanRecursive_eq_inclPatSkip cfg d cs depth count h1 h2 h3 h4 h5 h6 h7]
      exact ih (depth + 1) count
    by_cases h8 : ((cfg.includeHidden || isElementVisible d) &&
        (match cfg.filter with
         | some f => f (.mk d cs)
         | none => true)) = true
    · rw [scanRecursive_eq_push cfg d cs depth count h1 h2 h3 h4 h5 h6 h7 h8]
      have := ih (depth + 1) (count + 1)
      simp only [List.length_cons]
      omega
    · rw [scanRecursive_eq_skip cfg d cs depth count h1 h2 h3 h4 h5 h6 h7 h8]
      exact ih (depth + 1) count
  · intro depth count
    rw [scanChildren_eq_nil]
    simp
  · intro c rest ihc ihr depth count
    by_cases h : count ≥ cfg.maxElements
    · rw [scanChildren_eq_cap cfg c rest depth count h]
      simp
    · rw [scanChildren_eq_cons cfg c rest depth count h]
      have hc := ihc depth count
      have hr := ihr depth (scanRecursive cfg c depth count).2
      simp only [List.length_append]
      omega

/-- Saturation: starting below the cap, the final count is the capless total clipped
at the cap. -/
theorem scan_saturates (cfg : ScanConfig) :
    (∀ (node : DNode) (depth count : Nat), count ≤ cfg.maxElements →
      (scanRecursive cfg node depth count).2 =
        min cfg.maxElements (count + (scanAllNodes cfg node depth).length)) ∧
    (∀ (cs : List DNode) (depth count : Nat), count ≤ cfg.maxElements →
      (scanChildren cfg cs depth count).2 =
        min cfg.maxElements (count + (scanAllChildren cfg cs depth).length)) := by
  apply DNode.rec2
  · intro d cs ih depth count hcount
    by_cases h1 : depth > cfg.depth
    · rw [scanRecursive_eq_depth cfg d cs depth count h1,
        scanAllNodes_eq_depth cfg d cs depth h1]
      simp
      omega
    by_cases h2 : count ≥ cfg.maxElements
    · rw [scanRecursive_eq_cap cfg d cs depth count h1 h2]
      have hceq : count = cfg.maxElements := le_antisymm hcount h2
      simp
      omega
    by_cases h3 : ((cfg.excludeSelectors.getD []).any
        (fun sel => cfg.cssMatches sel (.mk d cs))) = true
    · rw [scanRecursive_eq_exclSel cfg d cs depth count h1 h2 h3,
        scanAllNodes_eq_exclSel cfg d cs depth h1 h3]
      simp
      omega
    by_cases h4 : ((cfg.excludeElements.getD []).contains (toLower d.tagName)) = true
    · rw [scanRecursive_eq_exclElem cfg d cs depth count h1 h2 h3 h4,
        scanAllNodes_eq_exclElem cfg d cs depth h1 h3 h4]
      simp
      omega
    by_cases h5 : ((cfg.excludePatterns.getD []).any (fun p => p (getElementInfo d))) = true
    · rw [scanRecursive_eq_exclPat cfg d cs depth count h1 h2 h3 h4 h5,
        scanAllNodes_eq_exclPat cfg d cs depth h1 h3 h4 h5]
      simp
      omega
    by_cases h6 : ((!(cfg.includeElements.getD []).isEmpty &&
        !(cfg.includeElements.getD []).contains (toLower d.tagName))) = true
    · rw [scanRecursive_eq_inclElemSkip cfg d cs depth count h1 h2 h3 h4 h5 h6,
        scanAllNodes_eq_inclElemSkip cfg d cs depth h1 h3 h4 h5 h6]
      exact ih (depth + 1) count hcount
    by_cases h7 : ((!(cfg.includePatterns.getD []).isEmpty &&
        !(cfg.includePatterns.getD []).any (fun p => p (getElementInfo d)))) = true
    · rw [scanRecursive_eq_inclPatSkip cfg d cs depth count h1 h2 h3 h4 h5 h6 h7,
        scanAllNodes_eq_inclPatSkip cfg d cs depth h1 h3 h4 h5 h6 h7]
      exact ih (depth + 1) count hcount
    by_cases h8 : ((cfg.includeHidden || isElementVisible d) &&
        (match cfg.filter with
         | some f => f (.mk d cs)
         | none => true)) = true
    · rw [scanRecursive_eq_push cfg d cs depth count h1 h2 h3 h4 h5 h6 h7 h8,
        scanAllNodes_eq_push cfg d cs depth h1 h3 h4 h5 h6 h7 h8]
      have := ih (depth + 1) (count + 1) (by omega)
      simp only [List.length_cons]
      omega
    · rw [scanRecursive_eq_skip cfg d cs depth count h1 h2 h3 h4 h5 h6 h7 h8,
        scanAllNodes_eq_skip cfg d cs depth h1 h3 h4 h5 h6 h7 h8]
      exact ih (depth + 1) count hcount
  · intro depth count hcount
    rw [scanChildren_eq_nil, scanAllChildren_eq_nil]
    simp
    omega
  · intro c rest ihc ihr depth count hcount
    by_cases h : count ≥ cfg.maxElements
    · rw [scanChildren_eq_cap cfg c rest depth count h]
      have hceq : count = cfg.maxElements := le_antisymm hcount h
      simp
      omega
    · rw [scanChildren_eq_cons cfg c rest depth count h,
        scanAllChildren_eq_cons cfg c rest depth]
      have hc := ihc depth count hcount
      have hple : (scanRecursive cfg c depth count).2 ≤ cfg.maxElements := by omega
      have hr := ihr depth (scanRecursive cfg c depth count).2 hple
      simp only [List.length_append]
      omega

/-- Every produced descriptor records a depth within the configured bound. -/
theorem scan_depth_bound (cfg : ScanConfig) :
    (∀ (node : DNode) (depth count : Nat) (e : ScanDesc),
      e ∈ (scanRecursive cfg node depth count).1 → e.depth ≤ cfg.depth) ∧
    (∀ (cs : List DNode) (depth count : Nat) (e : ScanDesc),
      e ∈ (scanChildren cfg cs depth count).1 → e.depth ≤ cfg.depth) := by
  apply DNode.rec2
  · intro d cs ih depth count e he
    by_cases h1 : depth > cfg.depth
    · rw [scanRecursive_eq_depth cfg d cs depth count h1] at he
      simp at he
    by_cases h2 : count ≥ cfg.maxElements
    · rw [scanRecursive_eq_cap cfg d cs depth count h1 h2] at he
      simp at he
    by_cases h3 : ((cfg.excludeSelectors.getD []).any
        (fun sel => cfg.cssMatches sel (.mk d cs))) = true
    · rw [scanRecursive_eq_exclSel cfg d cs depth count h1 h2 h3] at he
      simp at he
    by_cases h4 : ((cfg.excludeElements.getD []).contains (toLower d.tagName)) = true
    · rw [scanRecursive_eq_exclElem cfg d cs depth count h1 h2 h3 h4] at he
      simp at he
    by_cases h5 : ((cfg.excludePatterns.getD []).any (fun p => p (getElementInfo d))) = true
    · rw [scanRecursive_eq_exclPat cfg d cs depth count h1 h2 h3 h4 h5] at he
      simp at he
    by_cases h6 : ((!(cfg.includeElements.getD []).isEmpty &&
        !(cfg.includeElements.getD []).contains (toLower d.tagName))) = true
    · rw [scanRecursive_eq_inclElemSkip cfg d cs depth count h1 h2 h3 h4 h5 h6] at he
      exact ih (depth + 1) count e he
    by_cases h7 : ((!(cfg.includePatterns.getD []).isEmpty &&
        !(cfg.includePatterns.getD []).any (fun p => p (getElementInfo d)))) = true
    · rw [scanRecursive_eq_inclPatSkip cfg d cs depth count h1 h2 h3 h4 h5 h6 h7] at he
      exact ih (depth + 1) count e he
    by_cases h8 : ((cfg.includeHidden || isElementVisible d) &&
        (match cfg.filter with
         | some f => f (.mk d cs)
         | none => true)) = true
    · rw [scanRecursive_eq_push cfg d cs depth count h1 h2 h3 h4 h5 h6 h7 h8] at he
      rcases List.mem_cons.mp he with hhead | htail
      · subst hhead
        simp only []
        omega
      · exact ih (depth + 1) (count + 1) e htail
    · rw [scanRecursive_eq_skip cfg d cs depth count h1 h2 h3 h4 h5 h6 h7 h8] at he
      exact ih (depth + 1) count e he
  · intro depth count e he
    rw [scanChildren_eq_nil] at he
    simp at he
  · intro c rest ihc ihr depth count e he
    by_cases h : count ≥ cfg.maxElements
    · rw [scanChildren_eq_cap cfg c rest depth count h] at he
      simp at he
    · rw [scanChildren_eq_cons cfg c rest depth count h] at he
      rcases List.mem_append.mp he with hleft | hright
      · exact ihc depth count e hleft
      · exact ihr depth (scanRecursive cfg c depth count).2 e hright

/-! ## Claim C1 -/

/-- C1, counterexample: with `excludeElements = ['div']`, scanning a visible div that
wraps a visible button yields nothing at all — the button child is lost, although
without the type exclusion both nodes are admitted (so the child passes every other
filter). -/
theorem C1_counterexample :
    scan cfgExcludeDiv treeDivButton = [] ∧
    scan cfgPlain treeDivButton =
      [⟨visibleData "div" "wrap", 0⟩, ⟨visibleData "button" "btn1", 1⟩] :=
  ⟨rfl, rfl⟩

/-- C1 (amended): an exclude-element-type match or an exclude-pattern match prunes
the node together with its entire subtree, exactly like an exclude-selector match:
`scanRecursive` returns without visiting the children, so no descendant of the
excluded node appears in the output (descendants reachable only through it are
dropped). -/
theorem C1_exclude_type_or_pattern_prunes_subtree (cfg : ScanConfig) (node : DNode)
    (depth count : Nat)
    (h : (cfg.excludeElements.getD []).contains (toLower node.nodeData.tagName) = true ∨
      (cfg.excludePatterns.getD []).any (fun p => p (getElementInfo node.nodeData)) = true) :
    scanRecursive cfg node depth count = ([], count) := by
  cases node with
  | mk d cs =>
    simp only [DNode.nodeData] at h
    by_cases h1 : depth > cfg.depth
    · exact scanRecursive_eq_depth cfg d cs depth count h1
    by_cases h2 : count ≥ cfg.maxElements
    · exact scanRecursive_eq_cap cfg d cs depth count h1 h2
    by_cases h3 : ((cfg.excludeSelectors.getD []).any
        (fun sel => cfg.cssMatches sel (.mk d cs))) = true
    · exact scanRecursive_eq_exclSel cfg d cs depth count h1 h2 h3
    by_cases h4 : ((cfg.excludeElements.getD []).contains (toLower d.tagName)) = true
    · exact scanRecursive_eq_exclElem cfg d cs depth count h1 h2 h3 h4
    · rcases h with hL | hR
      · exact absurd hL h4
      · exact scanRecursive_eq_exclPat cfg d cs depth count h1 h2 h3 h4 hR

/-- C1, witness: pruning evaluated on the concrete excluded div. -/
theorem C1_witness :
    ((cfgExcludeDiv.excludeElements.getD []).contains
      (toLower treeDivButton.nodeData.tagName) = true ∨
      (cfgExcludeDiv.excludePatterns.getD []).any
        (fun p => p (getElementInfo treeDivButton.nodeData)) = true) ∧
    scanRecursive cfgExcludeDiv treeDivButton 0 0 = ([], 0) :=
  ⟨Or.inl (by decide),
   C1_exclude_type_or_pattern_prunes_subtree cfgExcludeDiv treeDivButton 0 0
     (Or.inl (by decide))⟩

/-! ## Claim C6 -/

/-- C6: no descriptor in the scan output comes from a node deeper than the configured
depth bound; and whenever the tree holds more qualifying nodes (the capless scan
output) than the element cap, the scan returns exactly `maxElements` descriptors and
the engine marks the context metadata as truncated (`partial`). -/
theorem C6_depth_and_cap_bounds (cfg : ScanConfig) (root : DNode) :
    (∀ e ∈ scan cfg root, e.depth ≤ cfg.depth) ∧
    ((scanAllNodes cfg root 0).length > cfg.maxElements →
      (scan cfg root).length = cfg.maxElements ∧
      engineTruncatedFlag (scan cfg root) cfg.maxElements = true) := by
  constructor
  · intro e he
    exact (scan_depth_bound cfg).1 root 0 0 e he
  · intro hmore
    have h1 := (scan_count_increment cfg).1 root 0 0
    have h2 := (scan_saturates cfg).1 root 0 0 (Nat.zero_le _)
    have hlen : (scan cfg root).length = cfg.maxElements := by
      unfold scan
      omega
    refine ⟨hlen, ?_⟩
    unfold engineTruncatedFlag
    simp [hlen]

/-- C6, witness: a four-qualifying-node tree scanned with a cap of two yields exactly
two descriptors, all within depth, and the truncation flag set. -/
theorem C6_witness :
    ((scanAllNodes cfgCapTwo treeFourNodes 0).length > cfgCapTwo.maxElements) ∧
    (∀ e ∈ scan cfgCapTwo treeFourNodes, e.depth ≤ cfgCapTwo.depth) ∧
    (scan cfgCapTwo treeFourNodes).length = cfgCapTwo.maxElements ∧
    engineTruncatedFlag (scan cfgCapTwo treeFourNodes) cfgCapTwo.maxElements = true := by
  have hq : (scanAllNodes cfgCapTwo treeFourNodes 0).length > cfgCapTwo.maxElements := by
    decide
  have h := C6_depth_and_cap_bounds cfgCapTwo treeFourNodes
  exact ⟨hq, h.1, (h.2 hq).1, (h.2 hq).2⟩

/-! ## Claim C9 -/

/-- C9: for each of the seven mapped ARIA roles, the classifier returns the
corresponding semantic type regardless of the element tag, `type` attribute,
`contenteditable` attribute, or anything else about the node: the role branch is
decided first. -/
theorem C9_role_takes_precedence (node : DNode) :
    (getAttr node.nodeData "role" = some "button" → getElementType node = .button) ∧
    (getAttr node.nodeData "role" = some "link" → getElementType node = .link) ∧
    (getAttr node.nodeData "role" = some "textbox" → getElementType node = .input) ∧
    (getAttr node.nodeData "role" = some "checkbox" → getElementType node = .checkbox) ∧
    (getAttr node.nodeData "role" = some "radio" → getElementType node = .radio) ∧
    (getAttr node.nodeData "role" = some "combobox" → getElementType node = .select) ∧
    (getAttr node.nodeData "role" = some "listbox" → getElementType node = .select) := by
  cases node with
  | mk d cs =>
    have t1 : toLower "button" = "button" := rfl
    have t2 : toLower "link" = "link" := rfl
    have t3 : toLower "textbox" = "textbox" := rfl
    have t4 : toLower "checkbox" = "checkbox" := rfl
    have t5 : toLower "radio" = "radio" := rfl
    have t6 : toLower "combobox" = "combobox" := rfl
    have t7 : toLower "listbox" = "listbox" := rfl
    refine ⟨?_, ?_, ?_, ?_, ?_, ?_, ?_⟩ <;> intro h <;>
      simp only [DNode.nodeData] at h <;>
      simp [getElementType, h, t1, t2, t3, t4, t5, t6, t7]

/-- C9, witness: an `input[type=checkbox][contenteditable=true]` carrying
`role="button"` classifies as a button. -/
theorem C9_witness :
    getAttr roleButtonNode.nodeData "role" = some "button" ∧
    getElementType roleButtonNode = .button :=
  ⟨rfl, (C9_role_takes_precedence roleButtonNode).1 rfl⟩

/-! ## Claim C10 -/

/-- C10: the bounding-box test of `isElementVisible` rejects an element only when
both width and height are zero — with normal display, visibility and opacity, an
element with zero width but non-zero height (or the reverse) counts as visible — and
such a zero-width element is admitted into the scan output of a default configuration
without `includeHidden`. -/
theorem C10_zero_area_visibility (d : NodeData) (h1 : d.display ≠ "none")
    (h2 : d.visibility ≠ "hidden") (h3 : d.opacity ≠ 0)
    (h4 : ¬(d.width = 0 ∧ d.height = 0)) :
    isElementVisible d = true ∧ scan cfgPlain treeZeroWidth = [⟨zeroWidthData, 0⟩] := by
  constructor
  · have h4b : ¬((d.width = 0 && d.height = 0) = true) := by
      intro hb
      simp at hb
      exact h4 hb
    unfold isElementVisible
    rw [if_neg h1, if_neg h2, if_neg h3, if_neg h4b]
  · rfl

/-- C10, witness: the characterization evaluated on the concrete zero-width button. -/
theorem C10_witness :
    (zeroWidthData.display ≠ "none") ∧ (zeroWidthData.visibility ≠ "hidden") ∧
    (zeroWidthData.opacity ≠ 0) ∧ (¬(zeroWidthData.width = 0 ∧ zeroWidthData.height = 0)) ∧
    isElementVisible zeroWidthData = true ∧
    scan cfgPlain treeZeroWidth = [⟨zeroWidthData, 0⟩] := by
  have h := C10_zero_area_visibility zeroWidthData (by decide) (by decide) (by decide)
    (by decide)
  exact ⟨by decide, by decide, by decide, by decide, h.1, h.2⟩

end UUICS
